import Mathlib

/-!
Verification development for the EchoLingo Lab language-learning console.

The development shallowly embeds the core of the repository:

* the server-side sanitizer (`server/index.ts`: `sanitizeUserData`,
  `sanitizeEnglishWord`, `sanitizeJapaneseSentence`, `sanitizeSpeechSettings`,
  `sanitizeTags`, `parseIsoOr`, `clampNumber`, `createInitialUserData`);
* the client-side scheduler, grouping, normalizers and review-queue state
  machine (`docker-start.sh` inline script: `REVIEW_INTERVAL_DAYS`, `isDue`,
  `markEnglishReviewed`, `markJapaneseReviewed`, `getEnglishQueueByGroup`,
  `getJapaneseQueueByGroup`, `normalizeEnglishWords`,
  `normalizeJapaneseSentences`, `startEnglishReview`, `stopEnglishReview`,
  `shiftEnglishReview`, `runEnglishReview` and the Japanese mirrors).

Untyped JavaScript values are modelled by the inductive `JsValue`; JavaScript
numbers are modelled by `Option ℚ` (`none` is `NaN`; the sanitizers only
compare, clamp and add small integers, which are exact operations on ℚ).
Host primitives that the code calls (`Date.parse`, `toISOString`,
`Number(string)`, number formatting, `crypto.randomUUID`, the `wanakana`
romanizer) are collected in a `JsEnv` record and quantified over, mirroring
the spec's requirement that the clock be injectable.  The JavaScript string
methods `trim` and `toLowerCase` are modelled by executable stand-ins
`jsTrim` and `jsToLower` (ASCII case mapping).
-/

namespace EchoLingo

/-- Model of an arbitrary JavaScript value (the TS type `unknown`).
`num none` models `NaN`. -/
inductive JsValue : Type where
  | undefined : JsValue
  | null : JsValue
  | bool : Bool → JsValue
  | num : Option ℚ → JsValue
  | str : String → JsValue
  | arr : List JsValue → JsValue
  | obj : List (String × JsValue) → JsValue

/-- Host primitives used by the embedded code, kept abstract and quantified
over in the theorems: `parseNum` is `Number(string)`, `showNum` is JS number
formatting, `parseDate` is `Date.parse` (returning `none` for `NaN`),
`isoOfTime` is `new Date(t).toISOString()`, `uuid` models
`crypto.randomUUID()` / `uid()` (keyed by the map index at the call site),
and `toRomaji` is the `wanakana` romanizer. -/
structure JsEnv : Type where
  parseNum : String → Option ℚ
  showNum : Option ℚ → String
  parseDate : String → Option Int
  isoOfTime : Int → String
  uuid : Nat → String
  toRomaji : String → String

/-- Whitespace test used by the model of `String.prototype.trim`. -/
def jsIsWS (c : Char) : Bool := c = ' ' || c = '\t' || c = '\n' || c = '\r'

/-- List-level trim: drop whitespace from the front, then from the back. -/
def trimL (l : List Char) : List Char :=
  List.rdropWhile jsIsWS (List.dropWhile jsIsWS l)

/-- Model of `String.prototype.trim`. -/
def jsTrim (s : String) : String := String.mk (trimL s.data)

/-- Model of `String.prototype.toLowerCase` (ASCII case mapping). -/
def jsToLower (s : String) : String := String.mk (s.data.map Char.toLower)

/-- Model of `String.prototype.startsWith` (structural, so that concrete
instances evaluate). -/
def jsStartsWith (s pre : String) : Bool := pre.data.isPrefixOf s.data

/-- Model of `String.prototype.slice(n)` with a non-negative start index. -/
def jsSlice (s : String) (n : Nat) : String := String.mk (s.data.drop n)

/-- Truthiness of a JavaScript value (`Boolean(v)`, `!v`, `v || d`). -/
def jsTruthy : JsValue → Bool
  | .undefined => false
  | .null => false
  | .bool b => b
  | .num none => false
  | .num (some q) => decide (q ≠ 0)
  | .str s => decide (s ≠ "")
  | .arr _ => true
  | .obj _ => true

/-- Test whether a value is nullish (`undefined` or `null`), the left side
of the `??` operator. -/
def jsNullish : JsValue → Bool
  | .undefined => true
  | .null => true
  | _ => false

/-- Model of `v ?? d`. -/
def nullishOr (v d : JsValue) : JsValue := if jsNullish v then d else v

/-- Model of `raw && typeof raw === 'object'` (arrays are objects in JS;
`null` is excluded by the truthiness test at every use site). -/
def isObjectLike : JsValue → Bool
  | .arr _ => true
  | .obj _ => true
  | _ => false

mutual
/-- Stringification of one array element inside `Array.prototype.toString`
(`null` and `undefined` become the empty string). -/
def jsElemToString (env : JsEnv) : JsValue → String
  | .undefined => ""
  | .null => ""
  | .bool b => cond b "true" "false"
  | .num q => env.showNum q
  | .str s => s
  | .arr xs => jsArrToString env xs
  | .obj _ => "[object Object]"

/-- Model of `Array.prototype.toString`: elements joined with commas. -/
def jsArrToString (env : JsEnv) : List JsValue → String
  | [] => ""
  | [x] => jsElemToString env x
  | x :: y :: xs => jsElemToString env x ++ "," ++ jsArrToString env (y :: xs)
end

/-- Model of the `String(v)` coercion. -/
def jsToString (env : JsEnv) : JsValue → String
  | .undefined => "undefined"
  | .null => "null"
  | .bool b => cond b "true" "false"
  | .num q => env.showNum q
  | .str s => s
  | .arr xs => jsArrToString env xs
  | .obj _ => "[object Object]"

/-- Model of the `Number(v)` coercion (`none` is `NaN`). -/
def toNumber (env : JsEnv) : JsValue → Option ℚ
  | .undefined => none
  | .null => some 0
  | .bool b => some (cond b 1 0)
  | .num q => q
  | .str s => env.parseNum s
  | .arr xs => env.parseNum (jsArrToString env xs)
  | .obj _ => none

/-- Property access `v.key` (first matching key; `undefined` on
non-objects and missing keys, as at every guarded use site in the code). -/
def getField : JsValue → String → JsValue
  | .obj fields, key => (fields.lookup key).getD .undefined
  | _, _ => .undefined

/-- First-occurrence deduplication, the order `Array.from(new Set(xs))`
produces. -/
def dedupFirstAux : List String → List String → List String
  | _, [] => []
  | seen, x :: xs =>
    if x ∈ seen then dedupFirstAux seen xs else x :: dedupFirstAux (x :: seen) xs

/-- Model of `Array.from(new Set(xs))`. -/
def dedupFirst (l : List String) : List String := dedupFirstAux [] l

/-! Data model.  The client and the server declare the identical TS shapes
(`EnglishWord`, `JapaneseSentence`, `SpeechSettings`, `UserDataRecord`), so
they are defined once here.  The `level` field is a JS number and is kept as
ℚ: the sanitizers clamp it but never round it. -/

/-- TS type `EnglishWord`. -/
structure EnglishWord : Type where
  id : String
  word : String
  meaningZh : String
  tags : List String
  needsWork : Bool
  level : ℚ
  lastReviewedAt : Option String
deriving DecidableEq

/-- One `{ word, meaningZh }` pair of `JapaneseSentence.vocabulary`. -/
structure JapaneseVocab : Type where
  word : String
  meaningZh : String
deriving DecidableEq

/-- TS type `JapaneseSentence`. -/
structure JapaneseSentence : Type where
  id : String
  sentence : String
  romaji : String
  meaningZh : String
  tags : List String
  vocabulary : List JapaneseVocab
  level : ℚ
  lastReviewedAt : Option String
deriving DecidableEq

/-- TS type `Record<'en' | 'zh' | 'ja', string>`. -/
structure LangMapS : Type where
  en : String
  zh : String
  ja : String
deriving DecidableEq

/-- TS type `Record<'en' | 'zh' | 'ja', number>`. -/
structure LangMapQ : Type where
  en : ℚ
  zh : ℚ
  ja : ℚ
deriving DecidableEq

/-- TS type `SpeechSettings`.  `engine` holds `"browser"` or `"openai"`. -/
structure SpeechSettings : Type where
  engine : String
  openAiVoice : String
  browserVoices : LangMapS
  rates : LangMapQ
  pitches : LangMapQ
  browserVolumes : LangMapQ
  openAiVolumes : LangMapQ
deriving DecidableEq

/-- TS type `UserDataRecord`.  `theme` holds `"light"` or `"dark"`. -/
structure UserDataRecord : Type where
  englishWords : List EnglishWord
  japaneseSentences : List JapaneseSentence
  speechSettings : SpeechSettings
  theme : String
  updatedAt : String
deriving DecidableEq

/-- Shared constant `defaultSpeechSettings` (identical literal in
`server/index.ts` and the client script). -/
def defaultSpeechSettings : SpeechSettings :=
  { engine := "browser"
    openAiVoice := "alloy"
    browserVoices := { en := "", zh := "", ja := "" }
    rates := { en := 0.95, zh := 0.95, ja := 0.95 }
    pitches := { en := 1, zh := 1, ja := 1 }
    browserVolumes := { en := 1, zh := 1, ja := 1 }
    openAiVolumes := { en := 0.9, zh := 0.9, ja := 0.9 } }

/-- Shared helper `clampNumber(value, min, max)` (identical in both files):
`NaN` collapses to the minimum, otherwise `Math.max(min, Math.min(max, v))`. -/
def clampNumber (value : Option ℚ) (lo hi : ℚ) : ℚ :=
  match value with
  | none => lo
  | some v => max lo (min hi v)

namespace Server

/-- Server `sanitizeTags`: coerce each entry via `String(item ?? '')`, trim,
lower-case, drop empties, deduplicate preserving first occurrence, cap at 10. -/
def sanitizeTags (env : JsEnv) (raw : JsValue) : List String :=
  match raw with
  | .arr items =>
    (dedupFirst
      ((items.map fun item => jsToLower (jsTrim (jsToString env (nullishOr item (.str ""))))).filter
        fun s => s ≠ "")).take 10
  | _ => []

/-- Server `parseIsoOr(value, fallback)`: keep a parseable ISO string
(re-serialized through `new Date(t).toISOString()`), otherwise the fallback. -/
def parseIsoOr (env : JsEnv) (value : JsValue) (fallback : String) : String :=
  match value with
  | .str s =>
    match env.parseDate s with
    | none => fallback
    | some t => env.isoOfTime t
  | _ => fallback

/-- Server `sanitizeEnglishWord(raw, index)`: `null` for non-objects and
for an empty trimmed `word`; otherwise each field is repaired independently.
Note the hard-coded `clampNumber(Number(source.level ?? 0), 0, 6)`. -/
def sanitizeEnglishWord (env : JsEnv) (raw : JsValue) (index : Nat) : Option EnglishWord :=
  if !(jsTruthy raw && isObjectLike raw) then none
  else
    let word := jsTrim (jsToString env (nullishOr (getField raw "word") (.str "")))
    if word = "" then none
    else
      let meaning := jsTrim (jsToString env (nullishOr (getField raw "meaningZh") (.str "")))
      some
        { id := jsToString env (nullishOr (getField raw "id")
            (.str ("en-" ++ toString index ++ "-" ++ env.uuid index)))
          word := word
          meaningZh := if meaning = "" then "（未填寫）" else meaning
          tags := sanitizeTags env (getField raw "tags")
          needsWork := jsTruthy (getField raw "needsWork")
          level := clampNumber (toNumber env (nullishOr (getField raw "level") (.num (some 0)))) 0 6
          lastReviewedAt :=
            match getField raw "lastReviewedAt" with
            | .str s => some s
            | _ => none }

/-- Server `sanitizeJapaneseSentence(raw, index)`.  Same skeleton as
`sanitizeEnglishWord`; `romaji` falls back to the sentence, `vocabulary`
pairs with an empty trimmed side are dropped. -/
def sanitizeJapaneseSentence (env : JsEnv) (raw : JsValue) (index : Nat) :
    Option JapaneseSentence :=
  if !(jsTruthy raw && isObjectLike raw) then none
  else
    let sentence := jsTrim (jsToString env (nullishOr (getField raw "sentence") (.str "")))
    if sentence = "" then none
    else
      let romaji := jsTrim (jsToString env (nullishOr (getField raw "romaji") (.str "")))
      let meaning := jsTrim (jsToString env (nullishOr (getField raw "meaningZh") (.str "")))
      some
        { id := jsToString env (nullishOr (getField raw "id")
            (.str ("ja-" ++ toString index ++ "-" ++ env.uuid index)))
          sentence := sentence
          romaji := if romaji = "" then sentence else romaji
          meaningZh := if meaning = "" then "（未填寫）" else meaning
          tags := sanitizeTags env (getField raw "tags")
          vocabulary :=
            (match getField raw "vocabulary" with
              | .arr items => items
              | _ => []).filterMap fun item =>
                if !(jsTruthy item && isObjectLike item) then none
                else
                  let word := jsTrim (jsToString env (nullishOr (getField item "word") (.str "")))
                  let meaningZh :=
                    jsTrim (jsToString env (nullishOr (getField item "meaningZh") (.str "")))
                  if word = "" ∨ meaningZh = "" then none
                  else some { word := word, meaningZh := meaningZh }
          level := clampNumber (toNumber env (nullishOr (getField raw "level") (.num (some 0)))) 0 6
          lastReviewedAt :=
            match getField raw "lastReviewedAt" with
            | .str s => some s
            | _ => none }

/-- Server `sanitizeSpeechSettings(raw)`: every bucket of every map is
rebuilt, with a legacy single `volumes` map migrated into both volume maps. -/
def sanitizeSpeechSettings (env : JsEnv) (raw : JsValue) : SpeechSettings :=
  let source := if jsTruthy raw && isObjectLike raw then raw else .obj []
  let legacyVolumes := getField source "volumes"
  { engine := match getField source "engine" with
      | .str "openai" => "openai"
      | _ => "browser"
    openAiVoice :=
      match getField source "openAiVoice" with
      | .str s => if jsTrim s ≠ "" then jsTrim s else "alloy"
      | _ => "alloy"
    browserVoices :=
      { en := match getField (getField source "browserVoices") "en" with
          | .str s => s
          | _ => ""
        zh := match getField (getField source "browserVoices") "zh" with
          | .str s => s
          | _ => ""
        ja := match getField (getField source "browserVoices") "ja" with
          | .str s => s
          | _ => "" }
    rates :=
      { en := clampNumber (toNumber env (nullishOr (getField (getField source "rates") "en")
          (.num (some 0.95)))) 0.6 1.3
        zh := clampNumber (toNumber env (nullishOr (getField (getField source "rates") "zh")
          (.num (some 0.95)))) 0.6 1.3
        ja := clampNumber (toNumber env (nullishOr (getField (getField source "rates") "ja")
          (.num (some 0.95)))) 0.6 1.3 }
    pitches :=
      { en := clampNumber (toNumber env (nullishOr (getField (getField source "pitches") "en")
          (.num (some 1)))) 0.7 1.4
        zh := clampNumber (toNumber env (nullishOr (getField (getField source "pitches") "zh")
          (.num (some 1)))) 0.7 1.4
        ja := clampNumber (toNumber env (nullishOr (getField (getField source "pitches") "ja")
          (.num (some 1)))) 0.7 1.4 }
    browserVolumes :=
      { en := clampNumber (toNumber env (nullishOr (getField (getField source "browserVolumes") "en")
          (nullishOr (getField legacyVolumes "en") (.num (some 1))))) 0 1
        zh := clampNumber (toNumber env (nullishOr (getField (getField source "browserVolumes") "zh")
          (nullishOr (getField legacyVolumes "zh") (.num (some 1))))) 0 1
        ja := clampNumber (toNumber env (nullishOr (getField (getField source "browserVolumes") "ja")
          (nullishOr (getField legacyVolumes "ja") (.num (some 1))))) 0 1 }
    openAiVolumes :=
      { en := clampNumber (toNumber env (nullishOr (getField (getField source "openAiVolumes") "en")
          (nullishOr (getField legacyVolumes "en") (.num (some 0.9))))) 0 1
        zh := clampNumber (toNumber env (nullishOr (getField (getField source "openAiVolumes") "zh")
          (nullishOr (getField legacyVolumes "zh") (.num (some 0.9))))) 0 1
        ja := clampNumber (toNumber env (nullishOr (getField (getField source "openAiVolumes") "ja")
          (nullishOr (getField legacyVolumes "ja") (.num (some 0.9))))) 0 1 } }

/-- One generated English seed entry (word, gloss, tags). -/
structure SeedWord : Type where
  word : String
  meaningZh : String
  tags : List String

/-- One generated Japanese seed entry. -/
structure SeedSentence : Type where
  sentence : String
  romaji : String
  meaningZh : String
  tags : List String
  vocabulary : List JapaneseVocab

/-- Modelled from the spec: `generateEnglishSeedWords` lives in
`src/seedData.ts`, which is not among the provided sources.  Per the spec the
generator yields a non-empty well-formed seed set (non-empty display text,
non-empty gloss) used for new-account bootstrap and as the empty-list
fallback. -/
def generateEnglishSeedWords (count : Nat) : List SeedWord :=
  (List.range count).map fun _ =>
    { word := "seedword", meaningZh := "seedgloss", tags := [] }

/-- Modelled from the spec: `generateJapaneseSeedSentences` lives in
`src/seedData.ts`, which is not among the provided sources.  Same contract as
`generateEnglishSeedWords`. -/
def generateJapaneseSeedSentences (count : Nat) : List SeedSentence :=
  (List.range count).map fun _ =>
    { sentence := "seedsentence", romaji := "seedromaji", meaningZh := "seedgloss",
      tags := [], vocabulary := [] }

/-- Server `createInitialUserData()`: 220 seed words and sentences with
deterministic ids, default speech settings, light theme. -/
def createInitialUserData (env : JsEnv) (nowMs : Int) : UserDataRecord :=
  { englishWords :=
      (generateEnglishSeedWords 220).enum.map fun p =>
        { id := "en-seed-" ++ toString (p.1 + 1)
          word := p.2.word
          meaningZh := p.2.meaningZh
          tags := sanitizeTags env (.arr (p.2.tags.map .str))
          needsWork := false
          level := 0
          lastReviewedAt := none }
    japaneseSentences :=
      (generateJapaneseSeedSentences 220).enum.map fun p =>
        { id := "ja-seed-" ++ toString (p.1 + 1)
          sentence := p.2.sentence
          romaji := p.2.romaji
          meaningZh := p.2.meaningZh
          tags := sanitizeTags env (.arr (p.2.tags.map .str))
          vocabulary := p.2.vocabulary.map fun v => { word := v.word, meaningZh := v.meaningZh }
          level := 0
          lastReviewedAt := none }
    speechSettings := defaultSpeechSettings
    theme := "light"
    updatedAt := env.isoOfTime nowMs }

/-- Server `sanitizeUserData(raw)`: total repair of an arbitrary value into a
`UserDataRecord`; lists that sanitize to empty fall back to the generated
seed set. -/
def sanitizeUserData (env : JsEnv) (nowMs : Int) (raw : JsValue) : UserDataRecord :=
  let source := if jsTruthy raw && isObjectLike raw then raw else .obj []
  let englishWords :=
    match getField source "englishWords" with
    | .arr items => items.enum.filterMap fun p => sanitizeEnglishWord env p.2 p.1
    | _ => []
  let japaneseSentences :=
    match getField source "japaneseSentences" with
    | .arr items => items.enum.filterMap fun p => sanitizeJapaneseSentence env p.2 p.1
    | _ => []
  let now := env.isoOfTime nowMs
  { englishWords :=
      if englishWords.length > 0 then englishWords
      else (createInitialUserData env nowMs).englishWords
    japaneseSentences :=
      if japaneseSentences.length > 0 then japaneseSentences
      else (createInitialUserData env nowMs).japaneseSentences
    speechSettings := sanitizeSpeechSettings env (getField source "speechSettings")
    theme := match getField source "theme" with
      | .str "dark" => "dark"
      | _ => "light"
    updatedAt := parseIsoOr env (getField source "updatedAt") now }

end Server

namespace Client

/-- Client constant `REVIEW_INTERVAL_DAYS = [0, 1, 3, 7, 14, 30]`. -/
def REVIEW_INTERVAL_DAYS : List Int := [0, 1, 3, 7, 14, 30]

/-- JavaScript array indexing `table[level]` for a numeric index: defined
exactly when the index is a non-negative integer inside the table. -/
def jsTableLookup (table : List Int) (q : ℚ) : Option Int :=
  if q.den = 1 ∧ 0 ≤ q.num then table.get? q.num.toNat else none

/-- The lookup `REVIEW_INTERVAL_DAYS[level] ?? REVIEW_INTERVAL_DAYS[REVIEW_INTERVAL_DAYS.length - 1]`
inside `isDue`; the fallback is the last entry of the (non-empty) table. -/
def waitDaysOf (level : ℚ) : Int :=
  match jsTableLookup REVIEW_INTERVAL_DAYS level with
  | some d => d
  | none => REVIEW_INTERVAL_DAYS.getLastD 0

/-- Client `isDue(level, lastReviewedAt)`.  A falsy `lastReviewedAt` (null or
the empty string) and an unparseable one are always due; otherwise due iff
`Date.now() >= reviewedAt + waitDays * 24*60*60*1000`. -/
def isDue (env : JsEnv) (nowMs : Int) (level : ℚ) (lastReviewedAt : Option String) : Bool :=
  match lastReviewedAt with
  | none => true
  | some s =>
    if s = "" then true
    else
      match env.parseDate s with
      | none => true
      | some reviewedAt => decide (nowMs ≥ reviewedAt + waitDaysOf level * (24 * 60 * 60 * 1000))

/-- Client `markEnglishReviewed(id)`: the matching item gets
`level = Math.min(level + 1, REVIEW_INTERVAL_DAYS.length - 1)` and
`lastReviewedAt = now`; every other item is untouched. -/
def markEnglishReviewed (nowIso : String) (id : String) (words : List EnglishWord) :
    List EnglishWord :=
  words.map fun item =>
    if item.id = id then
      { item with
        level := min (item.level + 1) ((REVIEW_INTERVAL_DAYS.length : ℚ) - 1)
        lastReviewedAt := some nowIso }
    else item

/-- Client `markJapaneseReviewed(id)`: mirror of `markEnglishReviewed`. -/
def markJapaneseReviewed (nowIso : String) (id : String)
    (sentences : List JapaneseSentence) : List JapaneseSentence :=
  sentences.map fun item =>
    if item.id = id then
      { item with
        level := min (item.level + 1) ((REVIEW_INTERVAL_DAYS.length : ℚ) - 1)
        lastReviewedAt := some nowIso }
    else item

/-- Client `getEnglishQueueByGroup(group)`: filter by group key; unknown keys
keep everything. -/
def getEnglishQueueByGroup (env : JsEnv) (nowMs : Int) (group : String)
    (words : List EnglishWord) : List EnglishWord :=
  words.filter fun item =>
    if group = "all" then true
    else if group = "due" then isDue env nowMs item.level item.lastReviewedAt
    else if group = "needs-work" then item.needsWork
    else if jsStartsWith group "tag:" then item.tags.contains (jsSlice group 4)
    else true

/-- Client `getJapaneseQueueByGroup(group)`: mirror without the
`needs-work` branch. -/
def getJapaneseQueueByGroup (env : JsEnv) (nowMs : Int) (group : String)
    (sentences : List JapaneseSentence) : List JapaneseSentence :=
  sentences.filter fun item =>
    if group = "all" then true
    else if group = "due" then isDue env nowMs item.level item.lastReviewedAt
    else if jsStartsWith group "tag:" then item.tags.contains (jsSlice group 4)
    else true

/-- Client `normalizeEnglishWords(input)`, embedded at its declared input
type (the client receives server-sanitized JSON): falsy `id` is replaced,
tags are lower-cased, `level` is clamped into
`[0, REVIEW_INTERVAL_DAYS.length - 1]`. -/
def normalizeEnglishWords (env : JsEnv) (input : List EnglishWord) : List EnglishWord :=
  input.enum.map fun p =>
    { id := if p.2.id = "" then "en-" ++ toString p.1 ++ "-" ++ env.uuid p.1 else p.2.id
      word := p.2.word
      meaningZh := p.2.meaningZh
      tags := p.2.tags.map jsToLower
      needsWork := p.2.needsWork
      level := clampNumber (some p.2.level) 0 ((REVIEW_INTERVAL_DAYS.length : ℚ) - 1)
      lastReviewedAt := p.2.lastReviewedAt }

/-- Client `normalizeJapaneseSentences(input)`, embedded at its declared
input type; a falsy `romaji` is derived from the sentence via `toRomaji`. -/
def normalizeJapaneseSentences (env : JsEnv) (input : List JapaneseSentence) :
    List JapaneseSentence :=
  input.enum.map fun p =>
    { id := if p.2.id = "" then "ja-" ++ toString p.1 ++ "-" ++ env.uuid p.1 else p.2.id
      sentence := p.2.sentence
      romaji := if p.2.romaji = "" then env.toRomaji p.2.sentence else p.2.romaji
      meaningZh := p.2.meaningZh
      tags := p.2.tags.map jsToLower
      vocabulary := p.2.vocabulary.map fun v => { word := v.word, meaningZh := v.meaningZh }
      level := clampNumber (some p.2.level) 0 ((REVIEW_INTERVAL_DAYS.length : ℚ) - 1)
      lastReviewedAt := p.2.lastReviewedAt }

/-- TS type `ReviewState<T>`: the per-track playback queue state. -/
structure ReviewState (α : Type) : Type where
  queue : List α
  index : Int
  running : Bool
  paused : Bool
  runId : Int
deriving DecidableEq

/-- The module-level mutable client state touched by the review state
machine: the two item lists, the two group selections and the two tracks. -/
structure ClientState : Type where
  englishWords : List EnglishWord
  japaneseSentences : List JapaneseSentence
  englishGroup : String
  japaneseGroup : String
  englishReview : ReviewState EnglishWord
  japaneseReview : ReviewState JapaneseSentence
deriving DecidableEq

/-- Integer instance of the shared `clampNumber` used for the cursor
arithmetic (the cursor is always an integer, so the `NaN` branch is dead). -/
def clampInt (value lo hi : Int) : Int := max lo (min hi value)

/-- Client `stopEnglishReview(stopPlayback)`: reset the track and bump
`runId`; the `stopPlayback` flag only touches external audio. -/
def stopEnglishReview (stopPlayback : Bool) (st : ClientState) : ClientState :=
  let _ := stopPlayback
  { st with
    englishReview :=
      { queue := [], index := 0, running := false, paused := false
        runId := st.englishReview.runId + 1 } }

/-- Client `stopJapaneseReview(stopPlayback)`: mirror of
`stopEnglishReview`. -/
def stopJapaneseReview (stopPlayback : Bool) (st : ClientState) : ClientState :=
  let _ := stopPlayback
  { st with
    japaneseReview :=
      { queue := [], index := 0, running := false, paused := false
        runId := st.japaneseReview.runId + 1 } }

/-- Client `startEnglishReview()`: the queue is assigned from the group
selection first; an empty selection then returns early (toast only), else
the other track is stopped and the track starts under a fresh `runId`. -/
def startEnglishReview (env : JsEnv) (nowMs : Int) (st : ClientState) : ClientState :=
  let queue := getEnglishQueueByGroup env nowMs st.englishGroup st.englishWords
  let st1 := { st with englishReview := { st.englishReview with queue := queue } }
  if queue.length = 0 then st1
  else
    let st2 := stopJapaneseReview false st1
    { st2 with
      englishReview :=
        { st2.englishReview with
          running := true, paused := false, index := 0
          runId := st2.englishReview.runId + 1 } }

/-- Client `startJapaneseReview()`: mirror of `startEnglishReview`. -/
def startJapaneseReview (env : JsEnv) (nowMs : Int) (st : ClientState) : ClientState :=
  let queue := getJapaneseQueueByGroup env nowMs st.japaneseGroup st.japaneseSentences
  let st1 := { st with japaneseReview := { st.japaneseReview with queue := queue } }
  if queue.length = 0 then st1
  else
    let st2 := stopEnglishReview false st1
    { st2 with
      japaneseReview :=
        { st2.japaneseReview with
          running := true, paused := false, index := 0
          runId := st2.japaneseReview.runId + 1 } }

/-- Continuation of one `runEnglishReview(runId)` iteration at the point
where `await speakEnglishWord(...)` resumes: if the track was stopped or the
captured `runId` is stale, return with no further effect; otherwise mark the
captured current item reviewed and advance the cursor. -/
def runEnglishReviewResume (nowIso : String) (runId0 : Int) (current : EnglishWord)
    (st : ClientState) : ClientState :=
  if !st.englishReview.running || st.englishReview.runId ≠ runId0 then st
  else
    { st with
      englishWords := markEnglishReviewed nowIso current.id st.englishWords
      englishReview := { st.englishReview with index := st.englishReview.index + 1 } }

/-- Continuation of one `runJapaneseReview(runId)` iteration after its
`await`: mirror of `runEnglishReviewResume`. -/
def runJapaneseReviewResume (nowIso : String) (runId0 : Int) (current : JapaneseSentence)
    (st : ClientState) : ClientState :=
  if !st.japaneseReview.running || st.japaneseReview.runId ≠ runId0 then st
  else
    { st with
      japaneseSentences := markJapaneseReviewed nowIso current.id st.japaneseSentences
      japaneseReview := { st.japaneseReview with index := st.japaneseReview.index + 1 } }

/-- Client `shiftEnglishReview(step)`: a no-op unless running with a
non-empty queue; otherwise clamp the cursor, unpause, bump `runId` (the new
drive loop and the abort signal are external effects). -/
def shiftEnglishReview (step : Int) (st : ClientState) : ClientState :=
  if !st.englishReview.running || st.englishReview.queue.length == 0 then st
  else
    { st with
      englishReview :=
        { st.englishReview with
          index := clampInt (st.englishReview.index + step) 0
            ((st.englishReview.queue.length : Int) - 1)
          paused := false
          runId := st.englishReview.runId + 1 } }

/-- Client `shiftJapaneseReview(step)`: mirror of `shiftEnglishReview`. -/
def shiftJapaneseReview (step : Int) (st : ClientState) : ClientState :=
  if !st.japaneseReview.running || st.japaneseReview.queue.length == 0 then st
  else
    { st with
      japaneseReview :=
        { st.japaneseReview with
          index := clampInt (st.japaneseReview.index + step) 0
            ((st.japaneseReview.queue.length : Int) - 1)
          paused := false
          runId := st.japaneseReview.runId + 1 } }

end Client

/-! Encoders from the typed records back to `JsValue`.  Feeding a
`UserDataRecord` back into `sanitizeUserData` (as the idempotence property
does) means passing the very JS object the record denotes; these encoders
spell out that object. -/

/-- Encoding of a nullable string field (`string | null`). -/
def encodeNullable : Option String → JsValue
  | none => .null
  | some s => .str s

/-- Encoding of a `string[]` field. -/
def encodeTags (tags : List String) : JsValue := .arr (tags.map .str)

/-- Encoding of an `EnglishWord` as the JS object it denotes. -/
def encodeEnglishWord (w : EnglishWord) : JsValue :=
  .obj
    [("id", .str w.id), ("word", .str w.word), ("meaningZh", .str w.meaningZh),
     ("tags", encodeTags w.tags), ("needsWork", .bool w.needsWork),
     ("level", .num (some w.level)), ("lastReviewedAt", encodeNullable w.lastReviewedAt)]

/-- Encoding of one vocabulary pair. -/
def encodeJapaneseVocab (v : JapaneseVocab) : JsValue :=
  .obj [("word", .str v.word), ("meaningZh", .str v.meaningZh)]

/-- Encoding of a `JapaneseSentence` as the JS object it denotes. -/
def encodeJapaneseSentence (s : JapaneseSentence) : JsValue :=
  .obj
    [("id", .str s.id), ("sentence", .str s.sentence), ("romaji", .str s.romaji),
     ("meaningZh", .str s.meaningZh), ("tags", encodeTags s.tags),
     ("vocabulary", .arr (s.vocabulary.map encodeJapaneseVocab)),
     ("level", .num (some s.level)), ("lastReviewedAt", encodeNullable s.lastReviewedAt)]

/-- Encoding of a per-language string map. -/
def encodeLangMapS (m : LangMapS) : JsValue :=
  .obj [("en", .str m.en), ("zh", .str m.zh), ("ja", .str m.ja)]

/-- Encoding of a per-language number map. -/
def encodeLangMapQ (m : LangMapQ) : JsValue :=
  .obj [("en", .num (some m.en)), ("zh", .num (some m.zh)), ("ja", .num (some m.ja))]

/-- Encoding of a `SpeechSettings` record. -/
def encodeSpeechSettings (s : SpeechSettings) : JsValue :=
  .obj
    [("engine", .str s.engine), ("openAiVoice", .str s.openAiVoice),
     ("browserVoices", encodeLangMapS s.browserVoices),
     ("rates", encodeLangMapQ s.rates), ("pitches", encodeLangMapQ s.pitches),
     ("browserVolumes", encodeLangMapQ s.browserVolumes),
     ("openAiVolumes", encodeLangMapQ s.openAiVolumes)]

/-- Encoding of a `UserDataRecord`. -/
def encodeUserDataRecord (r : UserDataRecord) : JsValue :=
  .obj
    [("englishWords", .arr (r.englishWords.map encodeEnglishWord)),
     ("japaneseSentences", .arr (r.japaneseSentences.map encodeJapaneseSentence)),
     ("speechSettings", encodeSpeechSettings r.speechSettings),
     ("theme", .str r.theme), ("updatedAt", .str r.updatedAt)]

/-! One concrete host environment, used to instantiate the quantified
theorems at evaluable inputs.  Its date functions encode a millisecond
timestamp in unary, which makes the ISO round trip provable. -/

/-- Concrete stand-in for `new Date(t).toISOString()`: a sign marker
followed by a unary digit string. -/
def cIso (t : Int) : String :=
  match t with
  | .ofNat n => String.mk ('+' :: List.replicate n 'a')
  | .negSucc n => String.mk ('-' :: List.replicate n 'a')

/-- Concrete stand-in for `Date.parse`, inverse of `cIso` on its image and
`none` everywhere else. -/
def cParseDate (s : String) : Option Int :=
  match s.data with
  | '+' :: rest => some (rest.length : Int)
  | '-' :: rest => some (Int.negSucc rest.length)
  | _ => none

/-- Concrete host environment. -/
def cEnv : JsEnv :=
  { parseNum := fun _ => none
    showNum := fun _ => "0"
    parseDate := cParseDate
    isoOfTime := cIso
    uuid := fun _ => "uuid"
    toRomaji := fun s => s }

/-- Shape invariant of sanitized English words: primary fields are trimmed
and non-empty, tags are normalized, the level is inside the server clamp
range. -/
def wordFix (w : EnglishWord) : Prop :=
  jsTrim w.word = w.word ∧ w.word ≠ ""
  ∧ jsTrim w.meaningZh = w.meaningZh ∧ w.meaningZh ≠ ""
  ∧ (∀ t ∈ w.tags, jsToLower (jsTrim t) = t ∧ t ≠ "")
  ∧ w.tags.Nodup ∧ w.tags.length ≤ 10
  ∧ 0 ≤ w.level ∧ w.level ≤ 6

/-- Shape invariant of sanitized Japanese sentences. -/
def sentenceFix (s : JapaneseSentence) : Prop :=
  jsTrim s.sentence = s.sentence ∧ s.sentence ≠ ""
  ∧ jsTrim s.romaji = s.romaji ∧ s.romaji ≠ ""
  ∧ jsTrim s.meaningZh = s.meaningZh ∧ s.meaningZh ≠ ""
  ∧ (∀ t ∈ s.tags, jsToLower (jsTrim t) = t ∧ t ≠ "")
  ∧ s.tags.Nodup ∧ s.tags.length ≤ 10
  ∧ (∀ v ∈ s.vocabulary, jsTrim v.word = v.word ∧ v.word ≠ ""
      ∧ jsTrim v.meaningZh = v.meaningZh ∧ v.meaningZh ≠ "")
  ∧ 0 ≤ s.level ∧ s.level ≤ 6

/-- Shape invariant of sanitized speech settings: a known engine, a trimmed
non-empty hosted-voice id, and every bucket of every numeric map inside its
clamp range. -/
def speechFix (s : SpeechSettings) : Prop :=
  (s.engine = "openai" ∨ s.engine = "browser")
  ∧ jsTrim s.openAiVoice = s.openAiVoice ∧ s.openAiVoice ≠ ""
  ∧ (0.6 ≤ s.rates.en ∧ s.rates.en ≤ 1.3)
  ∧ (0.6 ≤ s.rates.zh ∧ s.rates.zh ≤ 1.3)
  ∧ (0.6 ≤ s.rates.ja ∧ s.rates.ja ≤ 1.3)
  ∧ (0.7 ≤ s.pitches.en ∧ s.pitches.en ≤ 1.4)
  ∧ (0.7 ≤ s.pitches.zh ∧ s.pitches.zh ≤ 1.4)
  ∧ (0.7 ≤ s.pitches.ja ∧ s.pitches.ja ≤ 1.4)
  ∧ (0 ≤ s.browserVolumes.en ∧ s.browserVolumes.en ≤ 1)
  ∧ (0 ≤ s.browserVolumes.zh ∧ s.browserVolumes.zh ≤ 1)
  ∧ (0 ≤ s.browserVolumes.ja ∧ s.browserVolumes.ja ≤ 1)
  ∧ (0 ≤ s.openAiVolumes.en ∧ s.openAiVolumes.en ≤ 1)
  ∧ (0 ≤ s.openAiVolumes.zh ∧ s.openAiVolumes.zh ≤ 1)
  ∧ (0 ≤ s.openAiVolumes.ja ∧ s.openAiVolumes.ja ≤ 1)

/-- Shape invariant of sanitized user-data records, relative to the host
environment's clock encoding. -/
def recordFix (env : JsEnv) (r : UserDataRecord) : Prop :=
  (∀ w ∈ r.englishWords, wordFix w) ∧ r.englishWords ≠ []
  ∧ (∀ s ∈ r.japaneseSentences, sentenceFix s) ∧ r.japaneseSentences ≠ []
  ∧ speechFix r.speechSettings
  ∧ (r.theme = "dark" ∨ r.theme = "light")
  ∧ (∃ t, r.updatedAt = env.isoOfTime t)

/-- Sample vocabulary item used to instantiate the state-machine theorems. -/
def sampleWord : EnglishWord :=
  { id := "w1", word := "alpha", meaningZh := "甲", tags := ["news"], needsWork := false,
    level := 0, lastReviewedAt := none }

/-- Sample max-level vocabulary item. -/
def sampleWordMax : EnglishWord :=
  { id := "w2", word := "beta", meaningZh := "乙", tags := [], needsWork := true,
    level := 5, lastReviewedAt := some "ts" }

/-- Sample sentence item. -/
def sampleSentence : JapaneseSentence :=
  { id := "s1", sentence := "これはペンです", romaji := "kore wa pen desu", meaningZh := "這是筆",
    tags := ["news"], vocabulary := [], level := 0, lastReviewedAt := none }

/-- Idle Japanese track used by the sample states. -/
def idleJapaneseTrack : Client.ReviewState JapaneseSentence :=
  { queue := [], index := 0, running := false, paused := false, runId := 0 }

/-- Sample state: the English track is running a two-item queue at cursor 0. -/
def stShiftLo : Client.ClientState :=
  { englishWords := [sampleWord, sampleWordMax], japaneseSentences := [],
    englishGroup := "all", japaneseGroup := "all",
    englishReview :=
      { queue := [sampleWord, sampleWordMax], index := 0, running := true, paused := false,
        runId := 5 }
    japaneseReview := idleJapaneseTrack }

/-- Sample state: the English track is running a two-item queue at the last
cursor position. -/
def stShiftHi : Client.ClientState :=
  { englishWords := [sampleWord, sampleWordMax], japaneseSentences := [],
    englishGroup := "all", japaneseGroup := "all",
    englishReview :=
      { queue := [sampleWord, sampleWordMax], index := 1, running := true, paused := false,
        runId := 5 }
    japaneseReview := idleJapaneseTrack }

/-- Sample state with both tracks holding non-trivial run identifiers. -/
def stRunning : Client.ClientState :=
  { englishWords := [sampleWord], japaneseSentences := [sampleSentence],
    englishGroup := "all", japaneseGroup := "all",
    englishReview :=
      { queue := [sampleWord], index := 0, running := true, paused := false, runId := 4 }
    japaneseReview := idleJapaneseTrack }

/-- Sample state refuting claim C4 as stated: the English track is running
with a stale one-item queue while the live word list has become empty, so
the `"all"` selection is empty. -/
def stStaleQueue : Client.ClientState :=
  { englishWords := [], japaneseSentences := [],
    englishGroup := "all", japaneseGroup := "all",
    englishReview :=
      { queue := [sampleWord], index := 0, running := true, paused := false, runId := 3 }
    japaneseReview := idleJapaneseTrack }

/-- Sample idle state whose word list yields an empty `"due"`-free selection
for an unmatched tag. -/
def stIdle : Client.ClientState :=
  { englishWords := [sampleWord], japaneseSentences := [sampleSentence],
    englishGroup := "tag:none", japaneseGroup := "tag:none",
    englishReview := { queue := [], index := 0, running := false, paused := false, runId := 0 }
    japaneseReview := idleJapaneseTrack }

/-- Five-item demo list for the spec's tag-filter scenario: exactly the
second and fourth items carry the tag `"news"`. -/
def demoWords : List EnglishWord :=
  [{ id := "d1", word := "one", meaningZh := "一", tags := [], needsWork := false,
     level := 0, lastReviewedAt := none },
   { id := "d2", word := "two", meaningZh := "二", tags := ["news"], needsWork := false,
     level := 1, lastReviewedAt := none },
   { id := "d3", word := "three", meaningZh := "三", tags := ["sport"], needsWork := true,
     level := 2, lastReviewedAt := none },
   { id := "d4", word := "four", meaningZh := "四", tags := ["news", "sport"],
     needsWork := false, level := 3, lastReviewedAt := none },
   { id := "d5", word := "five", meaningZh := "五", tags := [], needsWork := false,
     level := 4, lastReviewedAt := none }]

/-- Raw item whose `level` field is the integer 6. -/
def rawLevelSix : JsValue := .obj [("word", .str "run"), ("level", .num (some 6))]

/-- The same item as the client normalizer receives it. -/
def clientLevelSix : EnglishWord :=
  { id := "w6", word := "run", meaningZh := "跑", tags := [], needsWork := false,
    level := 6, lastReviewedAt := none }

/-- Raw object carrying a `lastReviewedAt` string that is not a date. -/
def rawUnparseable : JsValue :=
  .obj [("word", .str "hello"), ("lastReviewedAt", .str "not-a-date")]

/-- The record `sanitizeEnglishWord` produces for `rawUnparseable`. -/
def wUnparseable : EnglishWord :=
  { id := "en-0-" ++ cEnv.uuid 0, word := "hello", meaningZh := "（未填寫）", tags := [],
    needsWork := false, level := clampNumber (some 0) 0 6,
    lastReviewedAt := some "not-a-date" }

/-- Round trip of the concrete date encoding. -/
theorem cParseDate_cIso (t : Int) : cParseDate (cIso t) = some t := by
  cases t <;> simp [cIso, cParseDate]

/-- Indexing a table at a natural-number level is plain list indexing. -/
theorem jsTableLookup_natCast (table : List Int) (n : Nat) :
    Client.jsTableLookup table (n : ℚ) = table.get? n := by
  unfold Client.jsTableLookup
  rw [if_pos ⟨Rat.den_natCast n, by rw [Rat.num_natCast]; exact Int.natCast_nonneg n⟩,
    Rat.num_natCast, Int.toNat_natCast]

/-- Claim C2: `isDue` returns `true` when `lastReviewedAt` is `null` or does
not parse as a timestamp; otherwise it returns `true` iff
`now >= lastReviewedAt + waitDays(level)*24h`, where `waitDays` is looked up
in the fixed table `[0,1,3,7,14,30]` and the last entry (30) is reused for
any level at or beyond the table's length. -/
theorem isDue_spec (env : JsEnv) (nowMs : Int) (level : Nat)
    (hempty : env.parseDate "" = none) :
    Client.isDue env nowMs (level : ℚ) none = true
    ∧ (∀ s, env.parseDate s = none → Client.isDue env nowMs (level : ℚ) (some s) = true)
    ∧ (∀ s t, env.parseDate s = some t →
        (Client.isDue env nowMs (level : ℚ) (some s) = true ↔
          nowMs ≥ t + Client.waitDaysOf (level : ℚ) * (24 * 60 * 60 * 1000)))
    ∧ (∀ h : level < Client.REVIEW_INTERVAL_DAYS.length,
        Client.waitDaysOf (level : ℚ) = Client.REVIEW_INTERVAL_DAYS.get ⟨level, h⟩)
    ∧ (Client.REVIEW_INTERVAL_DAYS.length ≤ level → Client.waitDaysOf (level : ℚ) = 30) := by
  refine ⟨rfl, fun s hs => ?_, fun s t ht => ?_, fun h => ?_, fun h => ?_⟩
  · by_cases hs0 : s = "" <;> simp [Client.isDue, hs0, hs]
  · have hs0 : s ≠ "" := by
      intro h0
      rw [h0, hempty] at ht
      exact Option.noConfusion ht
    simp [Client.isDue, hs0, ht, ge_iff_le]
  · unfold Client.waitDaysOf
    rw [jsTableLookup_natCast, List.get?_eq_get h]
  · unfold Client.waitDaysOf
    rw [jsTableLookup_natCast, List.get?_eq_none.mpr h]
    rfl

/-- Witness for C2 at the concrete environment: `null` is due at level 3,
and level 7 (beyond the table) waits 30 days. -/
theorem isDue_spec_witness :
    Client.isDue cEnv 0 ((3 : Nat) : ℚ) none = true
    ∧ Client.waitDaysOf ((7 : Nat) : ℚ) = 30 :=
  ⟨(isDue_spec cEnv 0 3 rfl).1, (isDue_spec cEnv 0 7 rfl).2.2.2.2 (by decide)⟩

/-- Claim C6: `markEnglishReviewed` / `markJapaneseReviewed` set the matching
item's `lastReviewedAt` to now and its level to
`min(level + 1, REVIEW_INTERVAL_DAYS.length - 1)`, leave a max-level item's
level unchanged, never lower a level that is within range, and leave all
other items untouched. -/
theorem markReviewed_spec (nowIso : String) (id : String)
    (words : List EnglishWord) (sentences : List JapaneseSentence) :
    (∀ i, ∀ h : i < words.length,
      ((words.get ⟨i, h⟩).id = id →
        ((Client.markEnglishReviewed nowIso id words).get? i).map (·.level) =
          some (min ((words.get ⟨i, h⟩).level + 1) ((Client.REVIEW_INTERVAL_DAYS.length : ℚ) - 1))
        ∧ ((Client.markEnglishReviewed nowIso id words).get? i).map (·.lastReviewedAt) =
          some (some nowIso))
      ∧ ((words.get ⟨i, h⟩).id ≠ id →
          (Client.markEnglishReviewed nowIso id words).get? i = some (words.get ⟨i, h⟩))
      ∧ ((words.get ⟨i, h⟩).id = id →
          (words.get ⟨i, h⟩).level = (Client.REVIEW_INTERVAL_DAYS.length : ℚ) - 1 →
          ((Client.markEnglishReviewed nowIso id words).get? i).map (·.level) =
            some (words.get ⟨i, h⟩).level)
      ∧ ((words.get ⟨i, h⟩).id = id →
          (words.get ⟨i, h⟩).level ≤ (Client.REVIEW_INTERVAL_DAYS.length : ℚ) - 1 →
          ((Client.markEnglishReviewed nowIso id words).get? i).map
            (fun w => decide ((words.get ⟨i, h⟩).level ≤ w.level)) = some true))
    ∧ (∀ i, ∀ h : i < sentences.length,
      ((sentences.get ⟨i, h⟩).id = id →
        ((Client.markJapaneseReviewed nowIso id sentences).get? i).map (·.level) =
          some (min ((sentences.get ⟨i, h⟩).level + 1)
            ((Client.REVIEW_INTERVAL_DAYS.length : ℚ) - 1))
        ∧ ((Client.markJapaneseReviewed nowIso id sentences).get? i).map (·.lastReviewedAt) =
          some (some nowIso))
      ∧ ((sentences.get ⟨i, h⟩).id ≠ id →
          (Client.markJapaneseReviewed nowIso id sentences).get? i =
            some (sentences.get ⟨i, h⟩))
      ∧ ((sentences.get ⟨i, h⟩).id = id →
          (sentences.get ⟨i, h⟩).level = (Client.REVIEW_INTERVAL_DAYS.length : ℚ) - 1 →
          ((Client.markJapaneseReviewed nowIso id sentences).get? i).map (·.level) =
            some (sentences.get ⟨i, h⟩).level)
      ∧ ((sentences.get ⟨i, h⟩).id = id →
          (sentences.get ⟨i, h⟩).level ≤ (Client.REVIEW_INTERVAL_DAYS.length : ℚ) - 1 →
          ((Client.markJapaneseReviewed nowIso id sentences).get? i).map
            (fun w => decide ((sentences.get ⟨i, h⟩).level ≤ w.level)) = some true)) := by
  constructor
  · intro i h
    have hres : (Client.markEnglishReviewed nowIso id words).get? i =
        some (if (words.get ⟨i, h⟩).id = id then
          { words.get ⟨i, h⟩ with
            level := min ((words.get ⟨i, h⟩).level + 1)
              ((Client.REVIEW_INTERVAL_DAYS.length : ℚ) - 1)
            lastReviewedAt := some nowIso }
        else words.get ⟨i, h⟩) := by
      rw [Client.markEnglishReviewed, List.get?_map, List.get?_eq_get h, Option.map_some']
    refine ⟨fun hid => ?_, fun hid => ?_, fun hid hmax => ?_, fun hid hle => ?_⟩
    · rw [hres, if_pos hid]
      exact ⟨rfl, rfl⟩
    · rw [hres, if_neg hid]
    · rw [hres, if_pos hid, Option.map_some']
      have hm : min ((words.get ⟨i, h⟩).level + 1) ((Client.REVIEW_INTERVAL_DAYS.length : ℚ) - 1)
          = (words.get ⟨i, h⟩).level := by
        rw [hmax]
        exact min_eq_right (by linarith)
      exact congrArg some hm
    · rw [hres, if_pos hid, Option.map_some']
      have hm : (words.get ⟨i, h⟩).level ≤
          min ((words.get ⟨i, h⟩).level + 1) ((Client.REVIEW_INTERVAL_DAYS.length : ℚ) - 1) :=
        le_min (by linarith) hle
      exact congrArg some (decide_eq_true hm)
  · intro i h
    have hres : (Client.markJapaneseReviewed nowIso id sentences).get? i =
        some (if (sentences.get ⟨i, h⟩).id = id then
          { sentences.get ⟨i, h⟩ with
            level := min ((sentences.get ⟨i, h⟩).level + 1)
              ((Client.REVIEW_INTERVAL_DAYS.length : ℚ) - 1)
            lastReviewedAt := some nowIso }
        else sentences.get ⟨i, h⟩) := by
      rw [Client.markJapaneseReviewed, List.get?_map, List.get?_eq_get h, Option.map_some']
    refine ⟨fun hid => ?_, fun hid => ?_, fun hid hmax => ?_, fun hid hle => ?_⟩
    · rw [hres, if_pos hid]
      exact ⟨rfl, rfl⟩
    · rw [hres, if_neg hid]
    · rw [hres, if_pos hid, Option.map_some']
      have hm : min ((sentences.get ⟨i, h⟩).level + 1)
          ((Client.REVIEW_INTERVAL_DAYS.length : ℚ) - 1) = (sentences.get ⟨i, h⟩).level := by
        rw [hmax]
        exact min_eq_right (by linarith)
      exact congrArg some hm
    · rw [hres, if_pos hid, Option.map_some']
      have hm : (sentences.get ⟨i, h⟩).level ≤
          min ((sentences.get ⟨i, h⟩).level + 1) ((Client.REVIEW_INTERVAL_DAYS.length : ℚ) - 1) :=
        le_min (by linarith) hle
      exact congrArg some (decide_eq_true hm)

/-- Witness for C6: marking `w2` (already at max level 5) keeps level 5, and
marking leaves the non-matching first item untouched. -/
theorem markReviewed_spec_witness :
    ((Client.markEnglishReviewed "t1" "w2" [sampleWord, sampleWordMax]).get? 1).map (·.level) =
      some sampleWordMax.level
    ∧ (Client.markEnglishReviewed "t1" "w2" [sampleWord, sampleWordMax]).get? 0 =
      some sampleWord := by
  have h := (markReviewed_spec "t1" "w2" [sampleWord, sampleWordMax] []).1
  exact ⟨(h 1 (by decide)).2.2.1 rfl (by norm_num [sampleWordMax, Client.REVIEW_INTERVAL_DAYS]),
    (h 0 (by decide)).2.1 (by decide)⟩

/-- Clamping keeps the value inside `[lo, hi]` when the range is sound. -/
theorem clampInt_mem (v lo hi : Int) (h : lo ≤ hi) :
    lo ≤ Client.clampInt v lo hi ∧ Client.clampInt v lo hi ≤ hi :=
  ⟨le_max_left _ _, max_le h (min_le_left _ _)⟩

/-- Clamping a value at or below the lower bound yields the lower bound. -/
theorem clampInt_underflow (v lo hi : Int) (hv : v ≤ lo) : Client.clampInt v lo hi = lo :=
  max_eq_left (le_trans (min_le_right _ _) hv)

/-- Clamping a value at or above the upper bound yields the upper bound. -/
theorem clampInt_overflow (v lo hi : Int) (hv : hi ≤ v) (h : lo ≤ hi) :
    Client.clampInt v lo hi = hi := by
  rw [Client.clampInt, min_eq_left hv, max_eq_right h]

/-- Claim C7: `shiftEnglishReview` / `shiftJapaneseReview` are no-ops when
the track is not running or has an empty queue; otherwise they clamp
`cursor + step` into `[0, queue.length - 1]` (no underflow at 0, no overflow
at the last index), bump `runId`, and keep the queue. -/
theorem shiftReview_spec (step : Int) (st : Client.ClientState) :
    ((st.englishReview.running = false ∨ st.englishReview.queue = []) →
      Client.shiftEnglishReview step st = st)
    ∧ (st.englishReview.running = true → st.englishReview.queue ≠ [] →
        (Client.shiftEnglishReview step st).englishReview.index =
          Client.clampInt (st.englishReview.index + step) 0
            ((st.englishReview.queue.length : Int) - 1)
        ∧ 0 ≤ (Client.shiftEnglishReview step st).englishReview.index
        ∧ (Client.shiftEnglishReview step st).englishReview.index ≤
            (st.englishReview.queue.length : Int) - 1
        ∧ (st.englishReview.index = 0 → step = -1 →
            (Client.shiftEnglishReview step st).englishReview.index = 0)
        ∧ (st.englishReview.index = (st.englishReview.queue.length : Int) - 1 → step = 1 →
            (Client.shiftEnglishReview step st).englishReview.index = st.englishReview.index)
        ∧ (Client.shiftEnglishReview step st).englishReview.runId =
            st.englishReview.runId + 1
        ∧ (Client.shiftEnglishReview step st).englishReview.queue = st.englishReview.queue)
    ∧ ((st.japaneseReview.running = false ∨ st.japaneseReview.queue = []) →
      Client.shiftJapaneseReview step st = st)
    ∧ (st.japaneseReview.running = true → st.japaneseReview.queue ≠ [] →
        (Client.shiftJapaneseReview step st).japaneseReview.index =
          Client.clampInt (st.japaneseReview.index + step) 0
            ((st.japaneseReview.queue.length : Int) - 1)
        ∧ 0 ≤ (Client.shiftJapaneseReview step st).japaneseReview.index
        ∧ (Client.shiftJapaneseReview step st).japaneseReview.index ≤
            (st.japaneseReview.queue.length : Int) - 1
        ∧ (st.japaneseReview.index = 0 → step = -1 →
            (Client.shiftJapaneseReview step st).japaneseReview.index = 0)
        ∧ (st.japaneseReview.index = (st.japaneseReview.queue.length : Int) - 1 → step = 1 →
            (Client.shiftJapaneseReview step st).japaneseReview.index = st.japaneseReview.index)
        ∧ (Client.shiftJapaneseReview step st).japaneseReview.runId =
            st.japaneseReview.runId + 1
        ∧ (Client.shiftJapaneseReview step st).japaneseReview.queue =
            st.japaneseReview.queue) := by
  refine ⟨fun h => ?_, fun hr hq => ?_, fun h => ?_, fun hr hq => ?_⟩
  · rw [Client.shiftEnglishReview, if_pos]
    rcases h with hr | hq
    · simp [hr]
    · simp [hq]
  · have hlen : 1 ≤ (st.englishReview.queue.length : Int) := by
      have := List.length_pos.mpr hq
      omega
    have hres : Client.shiftEnglishReview step st =
        { st with
          englishReview :=
            { st.englishReview with
              index := Client.clampInt (st.englishReview.index + step) 0
                ((st.englishReview.queue.length : Int) - 1)
              paused := false
              runId := st.englishReview.runId + 1 } } := by
      rw [Client.shiftEnglishReview, if_neg]
      simp [hr, List.length_eq_zero, hq]
    rw [hres]
    refine ⟨rfl, (clampInt_mem _ _ _ (by omega)).1, (clampInt_mem _ _ _ (by omega)).2,
      fun hidx hstep => ?_, fun hidx hstep => ?_, rfl, rfl⟩
    · show Client.clampInt (st.englishReview.index + step) 0 _ = 0
      rw [hidx, hstep]
      exact clampInt_underflow _ _ _ (by omega)
    · show Client.clampInt (st.englishReview.index + step) 0 _ = st.englishReview.index
      rw [hidx, hstep]
      exact clampInt_overflow _ _ _ (by omega) (by omega)
  · rw [Client.shiftJapaneseReview, if_pos]
    rcases h with hr | hq
    · simp [hr]
    · simp [hq]
  · have hlen : 1 ≤ (st.japaneseReview.queue.length : Int) := by
      have := List.length_pos.mpr hq
      omega
    have hres : Client.shiftJapaneseReview step st =
        { st with
          japaneseReview :=
            { st.japaneseReview with
              index := Client.clampInt (st.japaneseReview.index + step) 0
                ((st.japaneseReview.queue.length : Int) - 1)
              paused := false
              runId := st.japaneseReview.runId + 1 } } := by
      rw [Client.shiftJapaneseReview, if_neg]
      simp [hr, List.length_eq_zero, hq]
    rw [hres]
    refine ⟨rfl, (clampInt_mem _ _ _ (by omega)).1, (clampInt_mem _ _ _ (by omega)).2,
      fun hidx hstep => ?_, fun hidx hstep => ?_, rfl, rfl⟩
    · show Client.clampInt (st.japaneseReview.index + step) 0 _ = 0
      rw [hidx, hstep]
      exact clampInt_underflow _ _ _ (by omega)
    · show Client.clampInt (st.japaneseReview.index + step) 0 _ = st.japaneseReview.index
      rw [hidx, hstep]
      exact clampInt_overflow _ _ _ (by omega) (by omega)

/-- Witness for C7: `skip(-1)` at cursor 0 stays at 0 and bumps `runId`;
`skip(+1)` at the last index stays there. -/
theorem shiftReview_spec_witness :
    (Client.shiftEnglishReview (-1) stShiftLo).englishReview.index = 0
    ∧ (Client.shiftEnglishReview (-1) stShiftLo).englishReview.runId =
        stShiftLo.englishReview.runId + 1
    ∧ (Client.shiftEnglishReview 1 stShiftHi).englishReview.index =
        stShiftHi.englishReview.index := by
  refine ⟨((shiftReview_spec (-1) stShiftLo).2.1 rfl (by decide)).2.2.2.1 rfl rfl,
    ((shiftReview_spec (-1) stShiftLo).2.1 rfl (by decide)).2.2.2.2.2.1,
    ((shiftReview_spec 1 stShiftHi).2.1 rfl (by decide)).2.2.2.2.1 (by decide) rfl⟩

/-- Claim C5: `stopEnglishReview` / `stopJapaneseReview` strictly increase
the track's `runId`, and a drive-loop continuation that resumes from its
`await` with a stale captured `runId` leaves the whole client state
untouched: no `markEnglishReviewed` / `markJapaneseReviewed` call, no cursor
change. -/
theorem stopReview_invalidates_stale (b : Bool) (st : Client.ClientState) (nowIso : String)
    (runId0 : Int) (curE : EnglishWord) (curJ : JapaneseSentence) :
    (Client.stopEnglishReview b st).englishReview.runId = st.englishReview.runId + 1
    ∧ st.englishReview.runId < (Client.stopEnglishReview b st).englishReview.runId
    ∧ (runId0 ≠ st.englishReview.runId →
        Client.runEnglishReviewResume nowIso runId0 curE st = st)
    ∧ (Client.stopJapaneseReview b st).japaneseReview.runId = st.japaneseReview.runId + 1
    ∧ st.japaneseReview.runId < (Client.stopJapaneseReview b st).japaneseReview.runId
    ∧ (runId0 ≠ st.japaneseReview.runId →
        Client.runJapaneseReviewResume nowIso runId0 curJ st = st) := by
  refine ⟨rfl, ?_, fun hne => ?_, rfl, ?_, fun hne => ?_⟩
  · show st.englishReview.runId < st.englishReview.runId + 1
    omega
  · rw [Client.runEnglishReviewResume, if_pos]
    simp [Ne.symm hne]
  · show st.japaneseReview.runId < st.japaneseReview.runId + 1
    omega
  · rw [Client.runJapaneseReviewResume, if_pos]
    simp [Ne.symm hne]

/-- Witness for C5: stopping bumps `runId` from 4 to 5, and a continuation
captured under `runId = 9` resumes without any effect. -/
theorem stopReview_invalidates_stale_witness :
    (Client.stopEnglishReview true stRunning).englishReview.runId =
      stRunning.englishReview.runId + 1
    ∧ Client.runEnglishReviewResume "t" 9 sampleWord stRunning = stRunning :=
  ⟨(stopReview_invalidates_stale true stRunning "t" 9 sampleWord sampleSentence).1,
    (stopReview_invalidates_stale true stRunning "t" 9 sampleWord sampleSentence).2.2.1
      (by decide)⟩

/-- Counterexample to claim C4 as stated: at `stStaleQueue` the group
selection is empty, yet `startEnglishReview` changes the track's queue
(it overwrites the stale snapshot with the empty selection before the
emptiness check). -/
theorem startReview_empty_counterexample :
    Client.getEnglishQueueByGroup cEnv 0 stStaleQueue.englishGroup stStaleQueue.englishWords = []
    ∧ (Client.startEnglishReview cEnv 0 stStaleQueue).englishReview.queue ≠
        stStaleQueue.englishReview.queue := by
  exact ⟨rfl, by decide⟩

/-- Claim C4 as amended: starting a track whose group selection is empty
leaves the track's `running`, `paused`, cursor and `runId` (and the other
track, the item lists and the group keys) unchanged and overwrites the
track's queue with the empty selection; in particular it is a complete no-op
whenever the track's queue was already empty. -/
theorem startReview_empty_amended (env : JsEnv) (nowMs : Int) (st : Client.ClientState) :
    (Client.getEnglishQueueByGroup env nowMs st.englishGroup st.englishWords = [] →
      Client.startEnglishReview env nowMs st =
        { st with englishReview := { st.englishReview with queue := [] } }
      ∧ (Client.startEnglishReview env nowMs st).englishReview.running =
          st.englishReview.running
      ∧ (Client.startEnglishReview env nowMs st).englishReview.paused =
          st.englishReview.paused
      ∧ (Client.startEnglishReview env nowMs st).englishReview.index = st.englishReview.index
      ∧ (Client.startEnglishReview env nowMs st).englishReview.runId = st.englishReview.runId
      ∧ (Client.startEnglishReview env nowMs st).japaneseReview = st.japaneseReview
      ∧ (Client.startEnglishReview env nowMs st).englishWords = st.englishWords
      ∧ (st.englishReview.queue = [] → Client.startEnglishReview env nowMs st = st))
    ∧ (Client.getJapaneseQueueByGroup env nowMs st.japaneseGroup st.japaneseSentences = [] →
      Client.startJapaneseReview env nowMs st =
        { st with japaneseReview := { st.japaneseReview with queue := [] } }
      ∧ (Client.startJapaneseReview env nowMs st).japaneseReview.running =
          st.japaneseReview.running
      ∧ (Client.startJapaneseReview env nowMs st).japaneseReview.paused =
          st.japaneseReview.paused
      ∧ (Client.startJapaneseReview env nowMs st).japaneseReview.index =
          st.japaneseReview.index
      ∧ (Client.startJapaneseReview env nowMs st).japaneseReview.runId =
          st.japaneseReview.runId
      ∧ (Client.startJapaneseReview env nowMs st).englishReview = st.englishReview
      ∧ (Client.startJapaneseReview env nowMs st).japaneseSentences = st.japaneseSentences
      ∧ (st.japaneseReview.queue = [] → Client.startJapaneseReview env nowMs st = st)) := by
  constructor
  · intro hsel
    have hres : Client.startEnglishReview env nowMs st =
        { st with englishReview := { st.englishReview with queue := [] } } := by
      rw [Client.startEnglishReview]
      simp [hsel]
    refine ⟨hres, by rw [hres], by rw [hres], by rw [hres], by rw [hres], by rw [hres],
      by rw [hres], fun hq => ?_⟩
    rw [hres]
    rcases st with ⟨ew, js, eg, jg, er, jr⟩
    rcases er with ⟨q, ix, r, p, rid⟩
    simp only at hq
    subst hq
    rfl
  · intro hsel
    have hres : Client.startJapaneseReview env nowMs st =
        { st with japaneseReview := { st.japaneseReview with queue := [] } } := by
      rw [Client.startJapaneseReview]
      simp [hsel]
    refine ⟨hres, by rw [hres], by rw [hres], by rw [hres], by rw [hres], by rw [hres],
      by rw [hres], fun hq => ?_⟩
    rw [hres]
    rcases st with ⟨ew, js, eg, jg, er, jr⟩
    rcases jr with ⟨q, ix, r, p, rid⟩
    simp only at hq
    subst hq
    rfl

/-- Witness for the amended C4: starting either track of `stIdle` (whose
`"tag:none"` selection is empty and whose queues are already empty) changes
nothing at all. -/
theorem startReview_empty_amended_witness :
    Client.startEnglishReview cEnv 0 stIdle = stIdle
    ∧ Client.startJapaneseReview cEnv 0 stIdle = stIdle :=
  ⟨((startReview_empty_amended cEnv 0 stIdle).1 (by decide)).2.2.2.2.2.2.2 rfl,
    ((startReview_empty_amended cEnv 0 stIdle).2 (by decide)).2.2.2.2.2.2.2 rfl⟩

/-- Claim C9: the group selectors return the whole list for `"all"`, the due
items for `"due"`, the flagged items for `"needs-work"` (vocabulary track
only; the key is unknown to the sentence track and keeps everything), the
items carrying the tag for `"tag:<name>"`, and the whole list for every
unknown key — each an order-preserving sublist, never an error. -/
theorem queueByGroup_spec (env : JsEnv) (nowMs : Int) (g : String)
    (words : List EnglishWord) (sentences : List JapaneseSentence) :
    (Client.getEnglishQueueByGroup env nowMs "all" words = words)
    ∧ (Client.getEnglishQueueByGroup env nowMs "due" words =
        words.filter fun item => Client.isDue env nowMs item.level item.lastReviewedAt)
    ∧ (Client.getEnglishQueueByGroup env nowMs "needs-work" words =
        words.filter fun item => item.needsWork)
    ∧ (jsStartsWith g "tag:" = true →
        Client.getEnglishQueueByGroup env nowMs g words =
          words.filter fun item => item.tags.contains (jsSlice g 4))
    ∧ (g ≠ "all" → g ≠ "due" → g ≠ "needs-work" → jsStartsWith g "tag:" = false →
        Client.getEnglishQueueByGroup env nowMs g words = words)
    ∧ (Client.getEnglishQueueByGroup env nowMs g words).Sublist words
    ∧ (Client.getJapaneseQueueByGroup env nowMs "all" sentences = sentences)
    ∧ (Client.getJapaneseQueueByGroup env nowMs "due" sentences =
        sentences.filter fun item => Client.isDue env nowMs item.level item.lastReviewedAt)
    ∧ (Client.getJapaneseQueueByGroup env nowMs "needs-work" sentences = sentences)
    ∧ (jsStartsWith g "tag:" = true →
        Client.getJapaneseQueueByGroup env nowMs g sentences =
          sentences.filter fun item => item.tags.contains (jsSlice g 4))
    ∧ (g ≠ "all" → g ≠ "due" → jsStartsWith g "tag:" = false →
        Client.getJapaneseQueueByGroup env nowMs g sentences = sentences)
    ∧ (Client.getJapaneseQueueByGroup env nowMs g sentences).Sublist sentences := by
  refine ⟨?_, ?_, ?_, fun hst => ?_, fun h1 h2 h3 h4 => ?_, List.filter_sublist _,
    ?_, ?_, ?_, fun hst => ?_, fun h1 h2 h4 => ?_, List.filter_sublist _⟩
  · simp [Client.getEnglishQueueByGroup]
  · simp [Client.getEnglishQueueByGroup]
  · simp [Client.getEnglishQueueByGroup]
  · have h1 : g ≠ "all" := fun he => by rw [he] at hst; exact absurd hst (by decide)
    have h2 : g ≠ "due" := fun he => by rw [he] at hst; exact absurd hst (by decide)
    have h3 : g ≠ "needs-work" := fun he => by rw [he] at hst; exact absurd hst (by decide)
    unfold Client.getEnglishQueueByGroup
    congr 1
    funext item
    rw [if_neg h1, if_neg h2, if_neg h3, if_pos hst]
  · unfold Client.getEnglishQueueByGroup
    have hpred : (fun item : EnglishWord =>
        if g = "all" then true
        else if g = "due" then Client.isDue env nowMs item.level item.lastReviewedAt
        else if g = "needs-work" then item.needsWork
        else if jsStartsWith g "tag:" then item.tags.contains (jsSlice g 4)
        else true) = fun _ => true := by
      funext item
      rw [if_neg h1, if_neg h2, if_neg h3, h4]
      simp
    rw [hpred, List.filter_true]
  · simp [Client.getJapaneseQueueByGroup]
  · simp [Client.getJapaneseQueueByGroup]
  · have h : jsStartsWith "needs-work" "tag:" = false := by decide
    simp [Client.getJapaneseQueueByGroup, h]
  · have h1 : g ≠ "all" := fun he => by rw [he] at hst; exact absurd hst (by decide)
    have h2 : g ≠ "due" := fun he => by rw [he] at hst; exact absurd hst (by decide)
    unfold Client.getJapaneseQueueByGroup
    congr 1
    funext item
    rw [if_neg h1, if_neg h2, if_pos hst]
  · unfold Client.getJapaneseQueueByGroup
    have hpred : (fun item : JapaneseSentence =>
        if g = "all" then true
        else if g = "due" then Client.isDue env nowMs item.level item.lastReviewedAt
        else if jsStartsWith g "tag:" then item.tags.contains (jsSlice g 4)
        else true) = fun _ => true := by
      funext item
      rw [if_neg h1, if_neg h2, h4]
      simp
    rw [hpred, List.filter_true]

/-- Witness for C9: `"tag:news"` on the five-item demo list returns exactly
the two `"news"` items in order, and an unknown key keeps the whole list. -/
theorem queueByGroup_spec_witness :
    Client.getEnglishQueueByGroup cEnv 0 "tag:news" demoWords =
      [demoWords.get ⟨1, by decide⟩, demoWords.get ⟨3, by decide⟩]
    ∧ Client.getEnglishQueueByGroup cEnv 0 "mystery" demoWords = demoWords := by
  constructor
  · rw [(queueByGroup_spec cEnv 0 "tag:news" demoWords []).2.2.2.1 (by decide)]
    decide
  · exact (queueByGroup_spec cEnv 0 "mystery" demoWords []).2.2.2.2.1
      (by decide) (by decide) (by decide) (by decide)

/-- Claim C1 (divergence witness): on an item with `level = 6` the server
sanitizer keeps level 6 — outside `[0, L-1] = [0, 5]`, because
`sanitizeEnglishWord` hard-codes the clamp upper bound 6 — while the client
normalizer clamps the same input to `REVIEW_INTERVAL_DAYS.length - 1 = 5`,
so the two do not produce the same clamped level. -/
theorem sanitizeLevel_divergence :
    (Server.sanitizeEnglishWord cEnv rawLevelSix 0).map (·.level) = some 6
    ∧ (Client.normalizeEnglishWords cEnv [clientLevelSix]).map (·.level) = [5]
    ∧ (Client.REVIEW_INTERVAL_DAYS.length : ℚ) - 1 < 6 := by
  refine ⟨?_, ?_, by norm_num [Client.REVIEW_INTERVAL_DAYS]⟩
  · show some (clampNumber (some 6) 0 6) = some 6
    norm_num [clampNumber]
  · show [clampNumber (some 6) 0 ((Client.REVIEW_INTERVAL_DAYS.length : ℚ) - 1)] = [5]
    norm_num [clampNumber, Client.REVIEW_INTERVAL_DAYS]

/-- Sanitizing `undefined` produces the default speech settings. -/
theorem sanitizeSpeechSettings_undef (env : JsEnv) :
    Server.sanitizeSpeechSettings env .undefined = defaultSpeechSettings := by
  simp [Server.sanitizeSpeechSettings, defaultSpeechSettings, jsTruthy, isObjectLike,
    getField, nullishOr, jsNullish, toNumber, clampNumber, jsTrim,
    SpeechSettings.mk.injEq, LangMapQ.mk.injEq, LangMapS.mk.injEq]
  norm_num

/-- The generated seed set is non-empty (220 items). -/
theorem createInitialUserData_lengths (env : JsEnv) (nowMs : Int) :
    (Server.createInitialUserData env nowMs).englishWords.length = 220
    ∧ (Server.createInitialUserData env nowMs).japaneseSentences.length = 220 := by
  constructor <;>
    simp only [Server.createInitialUserData, Server.generateEnglishSeedWords,
      Server.generateJapaneseSeedSentences, List.length_map, List.enum_length,
      List.length_range]

/-- Claim C3: `sanitizeUserData` is total — for every input (however
malformed) both produced lists are non-empty — and on `undefined` and `{}`
it yields the seed lists, the fully-populated default speech settings (all
three language buckets in every map, by `defaultSpeechSettings`), theme
`"light"`, and the current time as `updatedAt`. -/
theorem sanitizeUserData_total_defaults (env : JsEnv) (nowMs : Int) (raw : JsValue) :
    (Server.sanitizeUserData env nowMs raw).englishWords ≠ []
    ∧ (Server.sanitizeUserData env nowMs raw).japaneseSentences ≠ []
    ∧ Server.sanitizeUserData env nowMs .undefined =
        { englishWords := (Server.createInitialUserData env nowMs).englishWords
          japaneseSentences := (Server.createInitialUserData env nowMs).japaneseSentences
          speechSettings := defaultSpeechSettings
          theme := "light"
          updatedAt := env.isoOfTime nowMs }
    ∧ Server.sanitizeUserData env nowMs (.obj []) = Server.sanitizeUserData env nowMs .undefined := by
  have hseedE : (Server.createInitialUserData env nowMs).englishWords ≠ [] := by
    intro h
    have := (createInitialUserData_lengths env nowMs).1
    rw [h] at this
    simp at this
  have hseedJ : (Server.createInitialUserData env nowMs).japaneseSentences ≠ [] := by
    intro h
    have := (createInitialUserData_lengths env nowMs).2
    rw [h] at this
    simp at this
  have hite : ∀ {α : Type} (l seedL : List α), seedL ≠ [] →
      (if l.length > 0 then l else seedL) ≠ [] := by
    intro α l seedL h
    split
    · next hp => exact List.length_pos.mp hp
    · exact h
  refine ⟨?_, ?_, ?_, ?_⟩
  · exact hite _ _ hseedE
  · exact hite _ _ hseedJ
  · rw [Server.sanitizeUserData]
    simp only [UserDataRecord.mk.injEq]
    exact ⟨rfl, rfl, sanitizeSpeechSettings_undef env, rfl, rfl⟩
  · rfl

/-- Witness for C3 at the concrete environment: even the junk input `NaN`
yields non-empty lists, and `{}` and `undefined` sanitize identically. -/
theorem sanitizeUserData_total_defaults_witness :
    (Server.sanitizeUserData cEnv 0 (JsValue.num none)).englishWords ≠ []
    ∧ Server.sanitizeUserData cEnv 0 (.obj []) = Server.sanitizeUserData cEnv 0 .undefined :=
  ⟨(sanitizeUserData_total_defaults cEnv 0 (JsValue.num none)).1,
    (sanitizeUserData_total_defaults cEnv 0 (JsValue.num none)).2.2.2⟩

/-- Claim C10: the server sanitizer keeps any string `lastReviewedAt`
verbatim — without checking that it parses — and maps every non-string value
to `null`; `isDue` then treats an unparseable string as always due. -/
theorem lastReviewedAt_passthrough (env : JsEnv) (fields : List (String × JsValue)) (i : Nat)
    (w : EnglishWord) (s : String) (nowMs : Int) (level : ℚ) :
    (getField (.obj fields) "lastReviewedAt" = .str s →
      Server.sanitizeEnglishWord env (.obj fields) i = some w → w.lastReviewedAt = some s)
    ∧ ((∀ s', getField (.obj fields) "lastReviewedAt" ≠ .str s') →
      Server.sanitizeEnglishWord env (.obj fields) i = some w → w.lastReviewedAt = none)
    ∧ (env.parseDate s = none → Client.isDue env nowMs level (some s) = true) := by
  refine ⟨fun hf hsan => ?_, fun hne hsan => ?_, fun hparse => ?_⟩
  · simp only [Server.sanitizeEnglishWord] at hsan
    split at hsan
    · exact absurd hsan (by simp)
    · split at hsan
      · exact absurd hsan (by simp)
      · injection hsan with h
        rw [← h, hf]
  · simp only [Server.sanitizeEnglishWord] at hsan
    split at hsan
    · exact absurd hsan (by simp)
    · split at hsan
      · exact absurd hsan (by simp)
      · injection hsan with h
        rw [← h]
  · by_cases hs : s = ""
    · simp [Client.isDue, hs]
    · simp [Client.isDue, hs, hparse]

/-- Witness for C10: the concrete item `rawUnparseable` sanitizes with
`lastReviewedAt = "not-a-date"` kept verbatim, and that item is always due. -/
theorem lastReviewedAt_passthrough_witness :
    wUnparseable.lastReviewedAt = some "not-a-date"
    ∧ Client.isDue cEnv 0 wUnparseable.level (some "not-a-date") = true :=
  ⟨(lastReviewedAt_passthrough cEnv
      [("word", .str "hello"), ("lastReviewedAt", .str "not-a-date")] 0 wUnparseable
      "not-a-date" 0 wUnparseable.level).1 rfl rfl,
    (lastReviewedAt_passthrough cEnv
      [("word", .str "hello"), ("lastReviewedAt", .str "not-a-date")] 0 wUnparseable
      "not-a-date" 0 wUnparseable.level).2.2 rfl⟩

/-- Unfolding `Char.ofNat` at a valid code point. -/
theorem toNat_ofNat_valid (n : Nat) (h : n.isValidChar) : (Char.ofNat n).toNat = n := by
  rw [Char.ofNat, dif_pos h]
  rfl

/-- Lower-casing is idempotent. -/
theorem charToLower_idem (c : Char) : c.toLower.toLower = c.toLower := by
  unfold Char.toLower
  by_cases h : c.toNat ≥ 65 ∧ c.toNat ≤ 90
  · rw [if_pos h]
    have ht : (Char.ofNat (c.toNat + 32)).toNat = c.toNat + 32 :=
      toNat_ofNat_valid _ (Or.inl (by omega))
    rw [if_neg]
    omega
  · rw [if_neg h, if_neg h]

/-- Characters outside the four whitespace code points are not whitespace. -/
theorem jsIsWS_eq_false_of_toNat {d : Char} (h1 : d.toNat ≠ 32) (h2 : d.toNat ≠ 9)
    (h3 : d.toNat ≠ 10) (h4 : d.toNat ≠ 13) : jsIsWS d = false := by
  unfold jsIsWS
  simp only [Bool.or_eq_false_iff, decide_eq_false_iff_not]
  refine ⟨⟨⟨?_, ?_⟩, ?_⟩, ?_⟩ <;> intro he <;> subst he
  · exact h1 rfl
  · exact h2 rfl
  · exact h3 rfl
  · exact h4 rfl

/-- Lower-casing does not change whitespace status. -/
theorem jsIsWS_toLower (c : Char) : jsIsWS c.toLower = jsIsWS c := by
  unfold Char.toLower
  by_cases h : c.toNat ≥ 65 ∧ c.toNat ≤ 90
  · rw [if_pos h]
    have ht : (Char.ofNat (c.toNat + 32)).toNat = c.toNat + 32 :=
      toNat_ofNat_valid _ (Or.inl (by omega))
    rw [jsIsWS_eq_false_of_toNat (by omega) (by omega) (by omega) (by omega),
      jsIsWS_eq_false_of_toNat (d := c) (by omega) (by omega) (by omega) (by omega)]
  · rw [if_neg h]

/-- List-level trim is idempotent. -/
theorem trimL_idem (l : List Char) : trimL (trimL l) = trimL l := by
  unfold trimL
  have hA : List.dropWhile jsIsWS (List.dropWhile jsIsWS l) = List.dropWhile jsIsWS l :=
    List.dropWhile_idempotent jsIsWS l
  have hB : List.dropWhile jsIsWS
      (List.rdropWhile jsIsWS (List.dropWhile jsIsWS l)) =
      List.rdropWhile jsIsWS (List.dropWhile jsIsWS l) := by
    obtain ⟨t, ht⟩ := List.rdropWhile_prefix jsIsWS (List.dropWhile jsIsWS l)
    cases hl2 : List.rdropWhile jsIsWS (List.dropWhile jsIsWS l) with
    | nil => rfl
    | cons a t2 =>
      rw [hl2] at ht
      have hwa : jsIsWS a = false := by
        rw [← ht] at hA
        by_contra hc
        rw [Bool.not_eq_false] at hc
        simp only [List.cons_append, List.dropWhile_cons, hc, if_pos] at hA
        have hlen := congrArg List.length hA
        rw [List.length_cons] at hlen
        have hle := ((List.dropWhile_suffix (l := t2 ++ t) jsIsWS).sublist).length_le
        omega
      rw [List.dropWhile_cons, hwa]
      simp
  rw [hB, List.rdropWhile_idempotent]

/-- Trimming commutes with lower-casing. -/
theorem trimL_map_toLower (l : List Char) :
    trimL (l.map Char.toLower) = (trimL l).map Char.toLower := by
  have hws : (fun c => jsIsWS (Char.toLower c)) = jsIsWS := funext jsIsWS_toLower
  unfold trimL List.rdropWhile
  rw [List.dropWhile_map, Function.comp_def, hws, ← List.map_reverse, List.dropWhile_map,
    Function.comp_def, hws, ← List.map_reverse]

/-- String-level trim is idempotent. -/
theorem jsTrim_idem (s : String) : jsTrim (jsTrim s) = jsTrim s := by
  unfold jsTrim
  exact congrArg String.mk (trimL_idem s.data)

/-- String-level lower-casing is idempotent. -/
theorem jsToLower_idem (s : String) : jsToLower (jsToLower s) = jsToLower s := by
  unfold jsToLower
  refine congrArg String.mk ?_
  rw [List.map_map]
  exact List.map_congr_left fun c _ => charToLower_idem c

/-- Trimming a lower-cased string lower-cases the trimmed string. -/
theorem jsTrim_jsToLower (s : String) : jsTrim (jsToLower s) = jsToLower (jsTrim s) := by
  unfold jsTrim jsToLower
  exact congrArg String.mk (trimL_map_toLower s.data)

/-- The tag normal form `String(x).trim().toLowerCase()` is idempotent. -/
theorem tagNormal_idem (s : String) :
    jsToLower (jsTrim (jsToLower (jsTrim s))) = jsToLower (jsTrim s) := by
  rw [jsTrim_jsToLower, jsToLower_idem, jsTrim_idem]

/-- Membership after deduplication implies membership before. -/
theorem mem_dedupFirstAux {x : String} :
    ∀ (seen l : List String), x ∈ dedupFirstAux seen l → x ∈ l := by
  intro seen l
  induction l generalizing seen with
  | nil => simp [dedupFirstAux]
  | cons a t ih =>
    rw [dedupFirstAux]
    split
    · exact fun h => List.mem_cons_of_mem a (ih _ h)
    · intro h
      rcases List.mem_cons.mp h with h | h
      · exact h ▸ List.mem_cons_self a t
      · exact List.mem_cons_of_mem a (ih _ h)

/-- Elements surviving deduplication were not previously seen. -/
theorem dedupFirstAux_not_seen {x : String} :
    ∀ (seen l : List String), x ∈ dedupFirstAux seen l → x ∉ seen := by
  intro seen l
  induction l generalizing seen with
  | nil => simp [dedupFirstAux]
  | cons a t ih =>
    rw [dedupFirstAux]
    split
    · exact ih _
    · next hnotin =>
      intro h
      rcases List.mem_cons.mp h with h | h
      · exact h ▸ hnotin
      · exact fun hx => (ih _ h) (List.mem_cons_of_mem a hx)

/-- Deduplication yields a duplicate-free list. -/
theorem dedupFirstAux_nodup : ∀ (seen l : List String), (dedupFirstAux seen l).Nodup := by
  intro seen l
  induction l generalizing seen with
  | nil => simp [dedupFirstAux]
  | cons a t ih =>
    rw [dedupFirstAux]
    split
    · exact ih _
    · refine List.nodup_cons.mpr ⟨fun h => ?_, ih _⟩
      exact (dedupFirstAux_not_seen _ _ h) (List.mem_cons_self a _)

/-- Deduplication does nothing on a duplicate-free list disjoint from
`seen`. -/
theorem dedupFirstAux_eq_self :
    ∀ (seen l : List String), l.Nodup → (∀ x ∈ l, x ∉ seen) →
      dedupFirstAux seen l = l := by
  intro seen l
  induction l generalizing seen with
  | nil => intro _ _; rfl
  | cons a t ih =>
    intro hnd hdisj
    rw [dedupFirstAux, if_neg (hdisj a (List.mem_cons_self a t))]
    refine congrArg (a :: ·) (ih _ (List.nodup_cons.mp hnd).2 fun x hx => ?_)
    intro hmem
    rcases List.mem_cons.mp hmem with h | h
    · exact (List.nodup_cons.mp hnd).1 (h ▸ hx)
    · exact hdisj x (List.mem_cons_of_mem a hx) h

/-- Deduplication of an already-deduplicated list is the identity. -/
theorem dedupFirst_eq_self {l : List String} (h : l.Nodup) : dedupFirst l = l :=
  dedupFirstAux_eq_self [] l h (by simp)

/-- Clamping keeps a rational inside `[lo, hi]` when the range is sound. -/
theorem clampQ_mem (v : Option ℚ) (lo hi : ℚ) (h : lo ≤ hi) :
    lo ≤ clampNumber v lo hi ∧ clampNumber v lo hi ≤ hi := by
  cases v with
  | none => exact ⟨le_refl lo, h⟩
  | some q => exact ⟨le_max_left _ _, max_le h (min_le_left _ _)⟩

/-- Clamping does nothing to a value already inside the range. -/
theorem clampQ_fix {q lo hi : ℚ} (h1 : lo ≤ q) (h2 : q ≤ hi) :
    clampNumber (some q) lo hi = q := by
  rw [clampNumber, min_eq_right h2, max_eq_right h1]

/-- Every tag produced by `sanitizeTags` is a non-empty
trim-and-lower-case normal form, and the list is duplicate-free and holds at
most ten tags. -/
theorem sanitizeTags_shape (env : JsEnv) (raw : JsValue) :
    (∀ t ∈ Server.sanitizeTags env raw,
      jsToLower (jsTrim t) = t ∧ t ≠ "")
    ∧ (Server.sanitizeTags env raw).Nodup
    ∧ (Server.sanitizeTags env raw).length ≤ 10 := by
  cases raw with
  | arr items =>
    simp only [Server.sanitizeTags]
    refine ⟨fun t ht => ?_, ?_, ?_⟩
    · have ht1 := mem_dedupFirstAux _ _ (List.Sublist.mem ht (List.take_sublist _ _))
      have ht2 := List.mem_filter.mp ht1
      obtain ⟨item, _, hitem⟩ := List.mem_map.mp ht2.1
      refine ⟨?_, by simpa using ht2.2⟩
      rw [← hitem]
      exact tagNormal_idem _
    · exact ((dedupFirstAux_nodup _ _).sublist (List.take_sublist _ _))
    · rw [List.length_take]
      omega
  | undefined => simp [Server.sanitizeTags]
  | null => simp [Server.sanitizeTags]
  | bool b => simp [Server.sanitizeTags]
  | num q => simp [Server.sanitizeTags]
  | str s => simp [Server.sanitizeTags]
  | obj fields => simp [Server.sanitizeTags]

/-- Sanitizing the encoding of a sanitized tag list changes nothing, under
any host environment. -/
theorem sanitizeTags_fix (env' : JsEnv) (ts : List String)
    (hts : ∀ t ∈ ts, jsToLower (jsTrim t) = t ∧ t ≠ "")
    (hnd : ts.Nodup) (hlen : ts.length ≤ 10) :
    Server.sanitizeTags env' (encodeTags ts) = ts := by
  simp only [Server.sanitizeTags, encodeTags]
  have hmap : (ts.map JsValue.str).map
      (fun item => jsToLower (jsTrim (jsToString env' (nullishOr item (.str ""))))) = ts := by
    rw [List.map_map]
    have hcg : ∀ t ∈ ts,
        ((fun item => jsToLower (jsTrim (jsToString env' (nullishOr item (.str "")))))
          ∘ JsValue.str) t = id t := fun t ht => (hts t ht).1
    rw [List.map_congr_left hcg, List.map_id]
  rw [hmap]
  rw [List.filter_eq_self.mpr fun t ht => by simpa using (hts t ht).2]
  rw [dedupFirst_eq_self hnd, List.take_of_length_le hlen]

/-- Every successful output of `sanitizeEnglishWord` satisfies `wordFix`. -/
theorem sanitizeEnglishWord_shape (env : JsEnv) (raw : JsValue) (i : Nat) (w : EnglishWord)
    (hsan : Server.sanitizeEnglishWord env raw i = some w) : wordFix w := by
  simp only [Server.sanitizeEnglishWord] at hsan
  split at hsan
  · exact absurd hsan (by simp)
  · split at hsan
    · exact absurd hsan (by simp)
    · next hne =>
      injection hsan with h
      subst h
      refine ⟨jsTrim_idem _, hne, ?_, ?_, (sanitizeTags_shape env _).1,
        (sanitizeTags_shape env _).2.1, (sanitizeTags_shape env _).2.2,
        (clampQ_mem _ _ _ (by norm_num)).1, (clampQ_mem _ _ _ (by norm_num)).2⟩
      · by_cases hm :
          jsTrim (jsToString env (nullishOr (getField raw "meaningZh") (.str ""))) = ""
        · simp only [hm, if_pos]
          decide
        · simp only [if_neg hm]
          exact jsTrim_idem _
      · by_cases hm :
          jsTrim (jsToString env (nullishOr (getField raw "meaningZh") (.str ""))) = ""
        · simp only [hm, if_pos]
          decide
        · simp only [if_neg hm]
          exact hm

/-- Sanitizing the encoding of a `wordFix` record reproduces the record, at
any index and under any host environment. -/
theorem sanitizeEnglishWord_fix (env : JsEnv) (j : Nat) (w : EnglishWord) (hw : wordFix w) :
    Server.sanitizeEnglishWord env (encodeEnglishWord w) j = some w := by
  obtain ⟨h1, h2, h3, h4, h5, h6, h7, h8, h9⟩ := hw
  have hcond : (!(jsTruthy (encodeEnglishWord w) && isObjectLike (encodeEnglishWord w)))
      = false := rfl
  have hword : jsTrim (jsToString env (nullishOr (getField (encodeEnglishWord w) "word")
      (.str ""))) = w.word := h1
  have hmean : jsTrim (jsToString env (nullishOr (getField (encodeEnglishWord w) "meaningZh")
      (.str ""))) = w.meaningZh := h3
  have htags : Server.sanitizeTags env (getField (encodeEnglishWord w) "tags") = w.tags := by
    have he : getField (encodeEnglishWord w) "tags" = encodeTags w.tags := rfl
    rw [he]
    exact sanitizeTags_fix env w.tags h5 h6 h7
  have hlev : toNumber env (nullishOr (getField (encodeEnglishWord w) "level")
      (.num (some 0))) = some w.level := rfl
  have hlast : (match getField (encodeEnglishWord w) "lastReviewedAt" with
      | JsValue.str s => some s
      | _ => none) = w.lastReviewedAt := by
    have he : getField (encodeEnglishWord w) "lastReviewedAt"
        = encodeNullable w.lastReviewedAt := rfl
    rw [he]
    cases w.lastReviewedAt with
    | none => rfl
    | some s => rfl
  simp only [Server.sanitizeEnglishWord, hcond, Bool.false_eq_true, if_false, hword,
    if_neg h2, hmean, if_neg h4, htags, hlev, hlast, clampQ_fix h8 h9]
  rfl

/-- Applying a function that fixes every element through `filterMap` is the
identity. -/
theorem filterMap_fixed {α : Type} (f : α → Option α) :
    ∀ (l : List α), (∀ a ∈ l, f a = some a) → l.filterMap f = l := by
  intro l
  induction l with
  | nil => intro _; rfl
  | cons a t ih =>
    intro h
    rw [List.filterMap_cons, h a (List.mem_cons_self a t)]
    exact congrArg (a :: ·) (ih fun x hx => h x (List.mem_cons_of_mem a hx))

/-- Every successful output of `sanitizeJapaneseSentence` satisfies
`sentenceFix`. -/
theorem sanitizeJapaneseSentence_shape (env : JsEnv) (raw : JsValue) (i : Nat)
    (s : JapaneseSentence)
    (hsan : Server.sanitizeJapaneseSentence env raw i = some s) : sentenceFix s := by
  simp only [Server.sanitizeJapaneseSentence] at hsan
  split at hsan
  · exact absurd hsan (by simp)
  · split at hsan
    · exact absurd hsan (by simp)
    · next hne =>
      injection hsan with h
      subst h
      refine ⟨jsTrim_idem _, hne, ?_, ?_, ?_, ?_, (sanitizeTags_shape env _).1,
        (sanitizeTags_shape env _).2.1, (sanitizeTags_shape env _).2.2, ?_,
        (clampQ_mem _ _ _ (by norm_num)).1, (clampQ_mem _ _ _ (by norm_num)).2⟩
      · by_cases hr :
          jsTrim (jsToString env (nullishOr (getField raw "romaji") (.str ""))) = ""
        · simp only [hr, if_pos]
          exact jsTrim_idem _
        · simp only [if_neg hr]
          exact jsTrim_idem _
      · by_cases hr :
          jsTrim (jsToString env (nullishOr (getField raw "romaji") (.str ""))) = ""
        · simp only [hr, if_pos]
          exact hne
        · simp only [if_neg hr]
          exact hr
      · by_cases hm :
          jsTrim (jsToString env (nullishOr (getField raw "meaningZh") (.str ""))) = ""
        · simp only [hm, if_pos]
          decide
        · simp only [if_neg hm]
          exact jsTrim_idem _
      · by_cases hm :
          jsTrim (jsToString env (nullishOr (getField raw "meaningZh") (.str ""))) = ""
        · simp only [hm, if_pos]
          decide
        · simp only [if_neg hm]
          exact hm
      · intro v hv
        obtain ⟨item, _, hfa⟩ := List.mem_filterMap.mp hv
        split at hfa
        · exact absurd hfa (by simp)
        · split at hfa
          · exact absurd hfa (by simp)
          · next hcond =>
            injection hfa with hf
            subst hf
            rw [not_or] at hcond
            exact ⟨jsTrim_idem _, hcond.1, jsTrim_idem _, hcond.2⟩

/-- Sanitizing the encoding of a `sentenceFix` record reproduces the
record. -/
theorem sanitizeJapaneseSentence_fix (env : JsEnv) (j : Nat) (s : JapaneseSentence)
    (hs : sentenceFix s) :
    Server.sanitizeJapaneseSentence env (encodeJapaneseSentence s) j = some s := by
  obtain ⟨h1, h2, h3, h4, h5, h6, h7, h8, h9, h10, h11, h12⟩ := hs
  have hcond : (!(jsTruthy (encodeJapaneseSentence s)
      && isObjectLike (encodeJapaneseSentence s))) = false := rfl
  have hsen : jsTrim (jsToString env (nullishOr (getField (encodeJapaneseSentence s)
      "sentence") (.str ""))) = s.sentence := h1
  have hrom : jsTrim (jsToString env (nullishOr (getField (encodeJapaneseSentence s)
      "romaji") (.str ""))) = s.romaji := h3
  have hmean : jsTrim (jsToString env (nullishOr (getField (encodeJapaneseSentence s)
      "meaningZh") (.str ""))) = s.meaningZh := h5
  have htags : Server.sanitizeTags env (getField (encodeJapaneseSentence s) "tags")
      = s.tags := by
    have he : getField (encodeJapaneseSentence s) "tags" = encodeTags s.tags := rfl
    rw [he]
    exact sanitizeTags_fix env s.tags h7 h8 h9
  have hvoc : ((match getField (encodeJapaneseSentence s) "vocabulary" with
      | JsValue.arr items => items
      | _ => []).filterMap fun item =>
        if !(jsTruthy item && isObjectLike item) then none
        else
          let word := jsTrim (jsToString env (nullishOr (getField item "word") (.str "")))
          let meaningZh :=
            jsTrim (jsToString env (nullishOr (getField item "meaningZh") (.str "")))
          if word = "" ∨ meaningZh = "" then none
          else some { word := word, meaningZh := meaningZh }) = s.vocabulary := by
    have he : (match getField (encodeJapaneseSentence s) "vocabulary" with
        | JsValue.arr items => items
        | _ => []) = s.vocabulary.map encodeJapaneseVocab := rfl
    rw [he, List.filterMap_map]
    refine filterMap_fixed _ _ fun v hv => ?_
    obtain ⟨hv1, hv2, hv3, hv4⟩ := h10 v hv
    have hw : jsTrim (jsToString env (nullishOr (getField (encodeJapaneseVocab v) "word")
        (.str ""))) = v.word := hv1
    have hm : jsTrim (jsToString env (nullishOr (getField (encodeJapaneseVocab v)
        "meaningZh") (.str ""))) = v.meaningZh := hv3
    show (if !(jsTruthy (encodeJapaneseVocab v) && isObjectLike (encodeJapaneseVocab v))
        then none
        else
          let word := jsTrim (jsToString env (nullishOr (getField (encodeJapaneseVocab v)
            "word") (.str "")))
          let meaningZh := jsTrim (jsToString env (nullishOr
            (getField (encodeJapaneseVocab v) "meaningZh") (.str "")))
          if word = "" ∨ meaningZh = "" then none
          else some { word := word, meaningZh := meaningZh }) = some v
    have hvc : (!(jsTruthy (encodeJapaneseVocab v) && isObjectLike (encodeJapaneseVocab v)))
        = false := rfl
    simp only [hw, hm]
    rw [if_neg (by rw [hvc]; simp), if_neg (not_or.mpr ⟨hv2, hv4⟩)]
  have hlev : toNumber env (nullishOr (getField (encodeJapaneseSentence s) "level")
      (.num (some 0))) = some s.level := rfl
  have hlast : (match getField (encodeJapaneseSentence s) "lastReviewedAt" with
      | JsValue.str s0 => some s0
      | _ => none) = s.lastReviewedAt := by
    have he : getField (encodeJapaneseSentence s) "lastReviewedAt"
        = encodeNullable s.lastReviewedAt := rfl
    rw [he]
    cases s.lastReviewedAt with
    | none => rfl
    | some s0 => rfl
  simp only [Server.sanitizeJapaneseSentence, hcond, Bool.false_eq_true, if_false, hsen,
    if_neg h2, hrom, if_neg h4, hmean, if_neg h6, htags, hvoc, hlev, hlast,
    clampQ_fix h11 h12]
  rfl

/-- Every output of `sanitizeSpeechSettings` satisfies `speechFix`. -/
theorem sanitizeSpeechSettings_shape (env : JsEnv) (raw : JsValue) :
    speechFix (Server.sanitizeSpeechSettings env raw) := by
  refine ⟨?_, ?_, ?_, clampQ_mem _ _ _ (by norm_num), clampQ_mem _ _ _ (by norm_num),
    clampQ_mem _ _ _ (by norm_num), clampQ_mem _ _ _ (by norm_num),
    clampQ_mem _ _ _ (by norm_num), clampQ_mem _ _ _ (by norm_num),
    clampQ_mem _ _ _ (by norm_num), clampQ_mem _ _ _ (by norm_num),
    clampQ_mem _ _ _ (by norm_num), clampQ_mem _ _ _ (by norm_num),
    clampQ_mem _ _ _ (by norm_num), clampQ_mem _ _ _ (by norm_num)⟩
  · show (match getField (if jsTruthy raw && isObjectLike raw then raw else .obj [])
        "engine" with
      | JsValue.str "openai" => "openai"
      | _ => "browser") = "openai"
      ∨ (match getField (if jsTruthy raw && isObjectLike raw then raw else .obj [])
        "engine" with
      | JsValue.str "openai" => "openai"
      | _ => "browser") = "browser"
    split
    · exact Or.inl rfl
    · exact Or.inr rfl
  · show jsTrim (match getField (if jsTruthy raw && isObjectLike raw then raw else .obj [])
        "openAiVoice" with
      | JsValue.str s => if jsTrim s ≠ "" then jsTrim s else "alloy"
      | _ => "alloy")
      = (match getField (if jsTruthy raw && isObjectLike raw then raw else .obj [])
        "openAiVoice" with
      | JsValue.str s => if jsTrim s ≠ "" then jsTrim s else "alloy"
      | _ => "alloy")
    split
    · split
      · exact jsTrim_idem _
      · decide
    · decide
  · show (match getField (if jsTruthy raw && isObjectLike raw then raw else .obj [])
        "openAiVoice" with
      | JsValue.str s => if jsTrim s ≠ "" then jsTrim s else "alloy"
      | _ => "alloy") ≠ ""
    split
    · split
      · next h => exact h
      · decide
    · decide

/-- Sanitizing the encoding of a `speechFix` record reproduces the record. -/
theorem sanitizeSpeechSettings_fix (env : JsEnv) (s : SpeechSettings) (hs : speechFix s) :
    Server.sanitizeSpeechSettings env (encodeSpeechSettings s) = s := by
  obtain ⟨heng, hv1, hv2, hr1, hr2, hr3, hp1, hp2, hp3, hb1, hb2, hb3, ho1, ho2, ho3⟩ := hs
  have hobj : (if jsTruthy (encodeSpeechSettings s) && isObjectLike (encodeSpeechSettings s)
      then encodeSpeechSettings s else .obj []) = encodeSpeechSettings s := rfl
  have hengF : (match getField (encodeSpeechSettings s) "engine" with
      | JsValue.str "openai" => "openai"
      | _ => "browser") = s.engine := by
    have he : getField (encodeSpeechSettings s) "engine" = .str s.engine := rfl
    rw [he]
    rcases heng with h | h <;> rw [h] <;> rfl
  have hvoiceF : (match getField (encodeSpeechSettings s) "openAiVoice" with
      | JsValue.str s0 => if jsTrim s0 ≠ "" then jsTrim s0 else "alloy"
      | _ => "alloy") = s.openAiVoice := by
    have he : getField (encodeSpeechSettings s) "openAiVoice" = .str s.openAiVoice := rfl
    rw [he]
    show (if jsTrim s.openAiVoice ≠ "" then jsTrim s.openAiVoice else "alloy")
      = s.openAiVoice
    rw [hv1, if_pos hv2]
  have hbvE : (match getField (getField (encodeSpeechSettings s) "browserVoices") "en" with
      | JsValue.str s0 => s0
      | _ => "") = s.browserVoices.en := rfl
  have hbvZ : (match getField (getField (encodeSpeechSettings s) "browserVoices") "zh" with
      | JsValue.str s0 => s0
      | _ => "") = s.browserVoices.zh := rfl
  have hbvJ : (match getField (getField (encodeSpeechSettings s) "browserVoices") "ja" with
      | JsValue.str s0 => s0
      | _ => "") = s.browserVoices.ja := rfl
  have hrE : toNumber env (nullishOr (getField (getField (encodeSpeechSettings s) "rates")
      "en") (.num (some 0.95))) = some s.rates.en := rfl
  have hrZ : toNumber env (nullishOr (getField (getField (encodeSpeechSettings s) "rates")
      "zh") (.num (some 0.95))) = some s.rates.zh := rfl
  have hrJ : toNumber env (nullishOr (getField (getField (encodeSpeechSettings s) "rates")
      "ja") (.num (some 0.95))) = some s.rates.ja := rfl
  have hpE : toNumber env (nullishOr (getField (getField (encodeSpeechSettings s) "pitches")
      "en") (.num (some 1))) = some s.pitches.en := rfl
  have hpZ : toNumber env (nullishOr (getField (getField (encodeSpeechSettings s) "pitches")
      "zh") (.num (some 1))) = some s.pitches.zh := rfl
  have hpJ : toNumber env (nullishOr (getField (getField (encodeSpeechSettings s) "pitches")
      "ja") (.num (some 1))) = some s.pitches.ja := rfl
  have hbE : toNumber env (nullishOr (getField (getField (encodeSpeechSettings s)
      "browserVolumes") "en") (nullishOr (getField (getField (encodeSpeechSettings s)
      "volumes") "en") (.num (some 1)))) = some s.browserVolumes.en := rfl
  have hbZ : toNumber env (nullishOr (getField (getField (encodeSpeechSettings s)
      "browserVolumes") "zh") (nullishOr (getField (getField (encodeSpeechSettings s)
      "volumes") "zh") (.num (some 1)))) = some s.browserVolumes.zh := rfl
  have hbJ : toNumber env (nullishOr (getField (getField (encodeSpeechSettings s)
      "browserVolumes") "ja") (nullishOr (getField (getField (encodeSpeechSettings s)
      "volumes") "ja") (.num (some 1)))) = some s.browserVolumes.ja := rfl
  have hoE : toNumber env (nullishOr (getField (getField (encodeSpeechSettings s)
      "openAiVolumes") "en") (nullishOr (getField (getField (encodeSpeechSettings s)
      "volumes") "en") (.num (some 0.9)))) = some s.openAiVolumes.en := rfl
  have hoZ : toNumber env (nullishOr (getField (getField (encodeSpeechSettings s)
      "openAiVolumes") "zh") (nullishOr (getField (getField (encodeSpeechSettings s)
      "volumes") "zh") (.num (some 0.9)))) = some s.openAiVolumes.zh := rfl
  have hoJ : toNumber env (nullishOr (getField (getField (encodeSpeechSettings s)
      "openAiVolumes") "ja") (nullishOr (getField (getField (encodeSpeechSettings s)
      "volumes") "ja") (.num (some 0.9)))) = some s.openAiVolumes.ja := rfl
  simp only [Server.sanitizeSpeechSettings, hobj, hengF, hvoiceF, hbvE, hbvZ, hbvJ,
    hrE, hrZ, hrJ, hpE, hpZ, hpJ, hbE, hbZ, hbJ, hoE, hoZ, hoJ,
    clampQ_fix hr1.1 hr1.2, clampQ_fix hr2.1 hr2.2, clampQ_fix hr3.1 hr3.2,
    clampQ_fix hp1.1 hp1.2, clampQ_fix hp2.1 hp2.2, clampQ_fix hp3.1 hp3.2,
    clampQ_fix hb1.1 hb1.2, clampQ_fix hb2.1 hb2.2, clampQ_fix hb3.1 hb3.2,
    clampQ_fix ho1.1 ho1.2, clampQ_fix ho2.1 ho2.2, clampQ_fix ho3.1 ho3.2]

/-- Elements of an enumerated list are elements of the list. -/
theorem snd_mem_of_mem_enum {α : Type} {l : List α} {p : Nat × α} (h : p ∈ l.enum) :
    p.2 ∈ l := by
  have := List.mem_map_of_mem Prod.snd h
  rwa [List.enum_map_snd] at this

/-- Enumerated, encoded elements that each sanitize back to themselves
survive `filterMap` untouched. -/
theorem enumFrom_filterMap_fixed {α : Type} (f : JsValue → Nat → Option α) (enc : α → JsValue) :
    ∀ (l : List α) (n : Nat), (∀ a ∈ l, ∀ j, f (enc a) j = some a) →
      (((l.map enc).enumFrom n).filterMap fun p => f p.2 p.1) = l := by
  intro l
  induction l with
  | nil => intro n _; rfl
  | cons a t ih =>
    intro n h
    simp only [List.map_cons, List.enumFrom_cons]
    rw [List.filterMap_cons]
    rw [h a (List.mem_cons_self a t) n]
    exact congrArg (a :: ·) (ih (n + 1) fun x hx j => h x (List.mem_cons_of_mem a hx) j)

/-- All seed vocabulary items satisfy `wordFix`. -/
theorem createInitialUserData_english_shape (env : JsEnv) (nowMs : Int) :
    ∀ w ∈ (Server.createInitialUserData env nowMs).englishWords, wordFix w := by
  intro w hw
  simp only [Server.createInitialUserData] at hw
  obtain ⟨p, hp, hfw⟩ := List.mem_map.mp hw
  have h2 : p.2 ∈ Server.generateEnglishSeedWords 220 := snd_mem_of_mem_enum hp
  rw [Server.generateEnglishSeedWords] at h2
  obtain ⟨i, _, hic⟩ := List.mem_map.mp h2
  subst hfw
  rw [← hic]
  exact ⟨(by decide : jsTrim "seedword" = "seedword"), (by decide : "seedword" ≠ ""),
    (by decide : jsTrim "seedgloss" = "seedgloss"), (by decide : "seedgloss" ≠ ""),
    (sanitizeTags_shape env (JsValue.arr (List.map JsValue.str
      ({ word := "seedword", meaningZh := "seedgloss", tags := [] } : Server.SeedWord).tags))).1,
    (sanitizeTags_shape env (JsValue.arr (List.map JsValue.str
      ({ word := "seedword", meaningZh := "seedgloss", tags := [] } : Server.SeedWord).tags))).2.1,
    (sanitizeTags_shape env (JsValue.arr (List.map JsValue.str
      ({ word := "seedword", meaningZh := "seedgloss", tags := [] } : Server.SeedWord).tags))).2.2,
    (by norm_num : (0 : ℚ) ≤ 0), (by norm_num : (0 : ℚ) ≤ 6)⟩

/-- All seed sentence items satisfy `sentenceFix`. -/
theorem createInitialUserData_japanese_shape (env : JsEnv) (nowMs : Int) :
    ∀ s ∈ (Server.createInitialUserData env nowMs).japaneseSentences, sentenceFix s := by
  intro s hs
  simp only [Server.createInitialUserData] at hs
  obtain ⟨p, hp, hfs⟩ := List.mem_map.mp hs
  have h2 : p.2 ∈ Server.generateJapaneseSeedSentences 220 := snd_mem_of_mem_enum hp
  rw [Server.generateJapaneseSeedSentences] at h2
  obtain ⟨i, _, hic⟩ := List.mem_map.mp h2
  subst hfs
  rw [← hic]
  refine ⟨(by decide : jsTrim "seedsentence" = "seedsentence"),
    (by decide : "seedsentence" ≠ ""), (by decide : jsTrim "seedromaji" = "seedromaji"),
    (by decide : "seedromaji" ≠ ""), (by decide : jsTrim "seedgloss" = "seedgloss"),
    (by decide : "seedgloss" ≠ ""),
    (sanitizeTags_shape env (JsValue.arr (List.map JsValue.str
      ({ sentence := "seedsentence", romaji := "seedromaji", meaningZh := "seedgloss",
         tags := [], vocabulary := [] } : Server.SeedSentence).tags))).1,
    (sanitizeTags_shape env (JsValue.arr (List.map JsValue.str
      ({ sentence := "seedsentence", romaji := "seedromaji", meaningZh := "seedgloss",
         tags := [], vocabulary := [] } : Server.SeedSentence).tags))).2.1,
    (sanitizeTags_shape env (JsValue.arr (List.map JsValue.str
      ({ sentence := "seedsentence", romaji := "seedromaji", meaningZh := "seedgloss",
         tags := [], vocabulary := [] } : Server.SeedSentence).tags))).2.2, ?_,
    (by norm_num : (0 : ℚ) ≤ 0), (by norm_num : (0 : ℚ) ≤ 6)⟩
  intro v hv
  simp at hv

/-- The two produced lists of `sanitizeUserData` are never empty. -/
theorem sanitizeUserData_ne_nil (env : JsEnv) (nowMs : Int) (raw : JsValue) :
    (Server.sanitizeUserData env nowMs raw).englishWords ≠ []
    ∧ (Server.sanitizeUserData env nowMs raw).japaneseSentences ≠ [] := by
  have hseedE : (Server.createInitialUserData env nowMs).englishWords ≠ [] := by
    intro h
    have := (createInitialUserData_lengths env nowMs).1
    rw [h] at this
    simp at this
  have hseedJ : (Server.createInitialUserData env nowMs).japaneseSentences ≠ [] := by
    intro h
    have := (createInitialUserData_lengths env nowMs).2
    rw [h] at this
    simp at this
  have hite : ∀ {α : Type} (l seedL : List α), seedL ≠ [] →
      (if l.length > 0 then l else seedL) ≠ [] := by
    intro α l seedL h
    split
    · next hp => exact List.length_pos.mp hp
    · exact h
  exact ⟨hite _ _ hseedE, hite _ _ hseedJ⟩

/-- The fallback of `parseIsoOr` keeps the result inside the ISO image when
the fallback itself is an ISO string. -/
theorem parseIsoOr_iso (env : JsEnv) (v : JsValue) (t0 : Int) :
    ∃ t, Server.parseIsoOr env v (env.isoOfTime t0) = env.isoOfTime t := by
  cases v with
  | str s =>
    cases h : env.parseDate s with
    | none => exact ⟨t0, by simp [Server.parseIsoOr, h]⟩
    | some t => exact ⟨t, by simp [Server.parseIsoOr, h]⟩
  | undefined => exact ⟨t0, rfl⟩
  | null => exact ⟨t0, rfl⟩
  | bool b => exact ⟨t0, rfl⟩
  | num q => exact ⟨t0, rfl⟩
  | arr xs => exact ⟨t0, rfl⟩
  | obj fields => exact ⟨t0, rfl⟩

/-- Membership in a length-guarded fallback choice is membership in one of
the two lists. -/
theorem mem_ite_length {α : Type} {l seedL : List α} {x : α}
    (h : x ∈ (if l.length > 0 then l else seedL)) : x ∈ l ∨ x ∈ seedL := by
  split at h
  · exact Or.inl h
  · exact Or.inr h

/-- Every output of `sanitizeUserData` satisfies `recordFix`. -/
theorem sanitizeUserData_shape (env : JsEnv) (nowMs : Int) (raw : JsValue) :
    recordFix env (Server.sanitizeUserData env nowMs raw) := by
  refine ⟨?_, (sanitizeUserData_ne_nil env nowMs raw).1, ?_,
    (sanitizeUserData_ne_nil env nowMs raw).2, sanitizeSpeechSettings_shape env _, ?_, ?_⟩
  · intro w hw
    rcases mem_ite_length hw with h | h
    · revert h
      cases getField (if jsTruthy raw && isObjectLike raw then raw else JsValue.obj [])
          "englishWords" with
      | arr items =>
        intro h
        obtain ⟨p, _, hsan⟩ := List.mem_filterMap.mp h
        exact sanitizeEnglishWord_shape env p.2 p.1 w hsan
      | undefined => intro h; exact absurd h (by simp)
      | null => intro h; exact absurd h (by simp)
      | bool b => intro h; exact absurd h (by simp)
      | num q => intro h; exact absurd h (by simp)
      | str s => intro h; exact absurd h (by simp)
      | obj fields => intro h; exact absurd h (by simp)
    · exact createInitialUserData_english_shape env nowMs w h
  · intro s hs
    rcases mem_ite_length hs with h | h
    · revert h
      cases getField (if jsTruthy raw && isObjectLike raw then raw else JsValue.obj [])
          "japaneseSentences" with
      | arr items =>
        intro h
        obtain ⟨p, _, hsan⟩ := List.mem_filterMap.mp h
        exact sanitizeJapaneseSentence_shape env p.2 p.1 s hsan
      | undefined => intro h; exact absurd h (by simp)
      | null => intro h; exact absurd h (by simp)
      | bool b => intro h; exact absurd h (by simp)
      | num q => intro h; exact absurd h (by simp)
      | str s0 => intro h; exact absurd h (by simp)
      | obj fields => intro h; exact absurd h (by simp)
    · exact createInitialUserData_japanese_shape env nowMs s h
  · show (match getField (if jsTruthy raw && isObjectLike raw then raw else .obj [])
        "theme" with
      | JsValue.str "dark" => "dark"
      | _ => "light") = "dark"
      ∨ (match getField (if jsTruthy raw && isObjectLike raw then raw else .obj [])
        "theme" with
      | JsValue.str "dark" => "dark"
      | _ => "light") = "light"
    split
    · exact Or.inl rfl
    · exact Or.inr rfl
  · exact parseIsoOr_iso env _ nowMs

/-- Sanitizing the encoding of any `recordFix` record reproduces the record,
provided the environment's ISO serialization round-trips through its date
parser (true of `Date.parse` on `toISOString` output). -/
theorem sanitizeUserData_second_pass (env : JsEnv) (now2 : Int) (r : UserDataRecord)
    (hfix : recordFix env r)
    (hRT : ∀ t, env.parseDate (env.isoOfTime t) = some t) :
    Server.sanitizeUserData env now2 (encodeUserDataRecord r) = r := by
  obtain ⟨hEw, hEne, hJs, hJne, hSp, hTh, t, hUp⟩ := hfix
  have hsource : (if jsTruthy (encodeUserDataRecord r) && isObjectLike (encodeUserDataRecord r)
      then encodeUserDataRecord r else JsValue.obj []) = encodeUserDataRecord r := rfl
  have hgE : getField (encodeUserDataRecord r) "englishWords"
      = .arr (r.englishWords.map encodeEnglishWord) := rfl
  have hgJ : getField (encodeUserDataRecord r) "japaneseSentences"
      = .arr (r.japaneseSentences.map encodeJapaneseSentence) := rfl
  have hgS : getField (encodeUserDataRecord r) "speechSettings"
      = encodeSpeechSettings r.speechSettings := rfl
  have hgT : getField (encodeUserDataRecord r) "theme" = .str r.theme := rfl
  have hgU : getField (encodeUserDataRecord r) "updatedAt" = .str r.updatedAt := rfl
  have hlistE : (((r.englishWords.map encodeEnglishWord).enumFrom 0).filterMap
      fun p => Server.sanitizeEnglishWord env p.2 p.1) = r.englishWords :=
    enumFrom_filterMap_fixed _ _ _ 0 fun a ha j => sanitizeEnglishWord_fix env j a (hEw a ha)
  have hlistJ : (((r.japaneseSentences.map encodeJapaneseSentence).enumFrom 0).filterMap
      fun p => Server.sanitizeJapaneseSentence env p.2 p.1) = r.japaneseSentences :=
    enumFrom_filterMap_fixed _ _ _ 0 fun a ha j =>
      sanitizeJapaneseSentence_fix env j a (hJs a ha)
  have hthm : (match JsValue.str r.theme with
      | JsValue.str "dark" => "dark"
      | _ => "light") = r.theme := by
    rcases hTh with h | h <;> rw [h] <;> rfl
  have hupd : Server.parseIsoOr env (.str r.updatedAt) (env.isoOfTime now2)
      = r.updatedAt := by
    rw [hUp]
    simp [Server.parseIsoOr, hRT t]
  have hlenE : r.englishWords.length > 0 := List.length_pos.mpr hEne
  have hlenJ : r.japaneseSentences.length > 0 := List.length_pos.mpr hJne
  simp only [Server.sanitizeUserData, hsource, hgE, hgJ, hgS, hgT, hgU, List.enum,
    hlistE, hlistJ, if_pos hlenE, if_pos hlenJ,
    sanitizeSpeechSettings_fix env r.speechSettings hSp, hthm, hupd]

/-- Claim C8: `sanitizeUserData` is idempotent — re-sanitizing the produced
record (encoded back as the JS object it denotes, even at a later wall-clock
time) changes no field, given only that the host's ISO serialization
round-trips through `Date.parse`. -/
theorem sanitizeUserData_idem (env : JsEnv) (now1 now2 : Int) (x : JsValue)
    (hRT : ∀ t, env.parseDate (env.isoOfTime t) = some t) :
    Server.sanitizeUserData env now2
      (encodeUserDataRecord (Server.sanitizeUserData env now1 x)) =
      Server.sanitizeUserData env now1 x :=
  sanitizeUserData_second_pass env now2 _ (sanitizeUserData_shape env now1 x) hRT

/-- Witness for C8 at the concrete environment: a second sanitization pass
over the record produced from `{}` (five time units later) is the identity. -/
theorem sanitizeUserData_idem_witness :
    Server.sanitizeUserData cEnv 5
      (encodeUserDataRecord (Server.sanitizeUserData cEnv 0 (.obj []))) =
      Server.sanitizeUserData cEnv 0 (.obj []) :=
  sanitizeUserData_idem cEnv 0 5 (.obj []) fun t => cParseDate_cIso t

end EchoLingo
